import Mathlib

/-!
Shallow embedding of the Lardum dungeon crawler (src/src/main.rs) and proofs
about its inventory/equipment model, dungeon generator and level transitions.

Modelling conventions:
* Rust `i32`/`u32`/`usize` quantities that are provably nonnegative in every
  reachable state (coordinates, levels, counts) are modelled as `Nat`;
  stat gauges are modelled as `Int` (they are `i32` and the spec discusses
  their bounds).
* The tile grid `Vec<Vec<Tile>>` is modelled as a total function
  `Nat → Nat → Tile`; every write performed by the source is in bounds, and
  reads outside the grid (which would panic in Rust) are not exercised by any
  theorem below.
* Random values drawn via `rand::thread_rng().gen_range(lo..hi)` are modelled
  by `gen_range lo hi seed = lo + seed % (hi - lo)`, with the seed an
  arbitrary natural number supplied by the environment: the model produces
  exactly the values in `[lo, hi)` and all theorems quantify over all seeds.
  `WeightedIndex::sample` is modelled by an arbitrary choice among the
  indices that carry a positive weight, which is exactly its support.
* `tcod` rendering/input state is not part of the game state and is omitted;
  colors are an opaque enumeration (pass-through data for the renderer).
* Indexing such as `game.inventory[i]` panics in Rust when out of bounds;
  here it totalises via a default object.  All call sites proved about are
  guarded (`i < len`) exactly as the resolver guards them.
-/

namespace Lardum

/-- Size of the map, `MAP_WIDTH` in the source. -/
def MAP_WIDTH : Nat := 100

/-- Size of the map, `MAP_HEIGHT` in the source. -/
def MAP_HEIGHT : Nat := 50

/-- `ROOM_MAX_SIZE` in the source. -/
def ROOM_MAX_SIZE : Nat := 10

/-- `ROOM_MIN_SIZE` in the source. -/
def ROOM_MIN_SIZE : Nat := 6

/-- `MAX_ROOMS` in the source. -/
def MAX_ROOMS : Nat := 30

/-- Index of the player in the object list (`const PLAYER: usize = 0`). -/
def PLAYER : Nat := 0

/-- The tcod colors used by the game; rendering pass-through data. -/
inductive Color where
  | white
  | red
  | green
  | yellow
  | lightGreen
  | lightYellow
  | violet
  | sky
  | darkerOrange
  | darkRed
  | orange
  | lightGrey
  | darkerGreen
  | black
  deriving DecidableEq

/-- A tile of the map and its properties. -/
structure Tile where
  blocked : Bool
  explored : Bool
  block_sight : Bool
  deriving DecidableEq

/-- `Tile::empty()`: open floor. -/
def Tile.empty : Tile :=
  { blocked := false, explored := false, block_sight := false }

/-- `Tile::wall()`. -/
def Tile.wall : Tile :=
  { blocked := true, explored := false, block_sight := true }

/-- The tile grid `Map = Vec<Vec<Tile>>`, indexed as `map[x][y]`. -/
abbrev Grid := Nat → Nat → Tile

/-- A message-log entry `(String, Color)`. -/
abbrev Msg := String × Color

/-- A rectangle on the map, used to characterise a room. -/
structure Rect where
  x1 : Nat
  y1 : Nat
  x2 : Nat
  y2 : Nat
  deriving DecidableEq

/-- `Rect::new(x, y, w, h)`. -/
def Rect.new (x y w h : Nat) : Rect :=
  { x1 := x, y1 := y, x2 := x + w, y2 := y + h }

/-- `Rect::center` (integer division as in `i32` division on nonnegatives). -/
def Rect.center (r : Rect) : Nat × Nat :=
  ((r.x1 + r.x2) / 2, (r.y1 + r.y2) / 2)

/-- `Rect::intersects_with`: inclusive bounding-box overlap test. -/
def Rect.intersects_with (r other : Rect) : Bool :=
  decide (r.x1 ≤ other.x2) && decide (other.x1 ≤ r.x2)
    && decide (r.y1 ≤ other.y2) && decide (other.y1 ≤ r.y2)

/-- Equipment slots. -/
inductive Slot where
  | LeftHand
  | RightHand
  | Head
  deriving DecidableEq

/-- An object that can be equipped, yielding bonuses. -/
structure Equipment where
  slot : Slot
  equipped : Bool
  max_hp_bonus : Int
  defense_bonus : Int
  power_bonus : Int
  deriving DecidableEq

/-- The closed item-kind enumeration. -/
inductive Item where
  | Heal
  | Lightning
  | Confuse
  | Fireball
  | Sword
  | Shield
  deriving DecidableEq

/-- Outcome of an item-use effect routine. -/
inductive UseResult where
  | UsedUp
  | UsedAndKept
  | Cancelled
  deriving DecidableEq

/-- Death-handling selector. -/
inductive DeathCallback where
  | Player
  | NPC
  deriving DecidableEq

/-- Monster AI capability (dormant in the current game loop). -/
inductive Ai where
  | Basic
  | Confused (previous_ai : Ai) (num_turns : Int)
  deriving DecidableEq

/-- Character-related properties: the eight need-gauges and their shared
bound `base_max_all_stats`. -/
structure Stats where
  base_max_all_stats : Int
  hunger : Int
  comfort : Int
  hygiene : Int
  bladder : Int
  energy : Int
  «fun» : Int
  social : Int
  room : Int
  on_death : DeathCallback
  deriving DecidableEq

/-- The generic game object (player, item, stairs, ...). -/
structure Object where
  x : Nat
  y : Nat
  char : Char
  color : Color
  name : String
  blocks : Bool
  alive : Bool
  stats : Option Stats
  ai : Option Ai
  item : Option Item
  equipment : Option Equipment
  always_visible : Bool
  deriving DecidableEq

/-- `Object::new`. -/
def Object.new (x y : Nat) (char : Char) (name : String) (color : Color)
    (blocks : Bool) : Object :=
  { x := x, y := y, char := char, color := color, name := name,
    blocks := blocks, alive := false, stats := none, ai := none,
    item := none, equipment := none, always_visible := false }

/-- Default object used to totalise the partial (panicking) `Vec` indexing
of the source; never observed by a proved theorem. -/
def dObj : Object := Object.new 0 0 ' ' "" Color.black false

/-- `Object::pos`. -/
def Object.pos (o : Object) : Nat × Nat := (o.x, o.y)

/-- `Object::set_pos`. -/
def Object.set_pos (o : Object) (x y : Nat) : Object :=
  { o with x := x, y := y }

/-- An entry of a leveled transition table. -/
structure Transition where
  level : Nat
  value : Nat
  deriving DecidableEq

/-- `from_dungeon_level`: scan the table in descending order and return the
value of the first entry whose threshold does not exceed `level` (0 if
none). -/
def from_dungeon_level (table : List Transition) (level : Nat) : Nat :=
  match table.reverse.find? (fun transition => decide (transition.level ≤ level)) with
  | some transition => transition.value
  | none => 0

/-- Model of `rand::thread_rng().gen_range(lo..hi)`: the seed selects an
arbitrary element of `[lo, hi)` (for `hi > lo`; every such element is
attained by some seed). -/
def gen_range (lo hi seed : Nat) : Nat := lo + seed % (hi - lo)

/-- The game session: tile grid, message log, inventory, dungeon-level
counter and the live entity store. -/
structure Game where
  map : Grid
  log : List Msg
  inventory : List Object
  dungeon_level : Nat
  objects : List Object

/-- `MessageLog::add`: append a `(text, color)` pair to the log. -/
def addMsg (log : List Msg) (message : String) (color : Color) : List Msg :=
  log ++ [(message, color)]

/-- The `Display` rendering of a `Slot` used inside log messages. -/
def slotName : Slot → String
  | Slot.LeftHand => "left hand"
  | Slot.RightHand => "right hand"
  | Slot.Head => "head"

/-- `Object::equip`.  (The two error branches format the whole object with
Rust `Debug` formatting; the model uses a fixed text there, and no theorem
below inspects those unreachable messages.) -/
def Object.equip (o : Object) (log : List Msg) : Object × List Msg :=
  if o.item.isNone then
    (o, addMsg log "Cannot equip: not an Item." Color.red)
  else
    match o.equipment with
    | some equipment =>
      if equipment.equipped then (o, log)
      else
        ({ o with equipment := some { equipment with equipped := true } },
          addMsg log ("Equipped " ++ o.name ++ " on " ++ slotName equipment.slot ++ ".")
            Color.lightGreen)
    | none => (o, addMsg log "Cannot equip: not an Equipment." Color.red)

/-- `Object::unequip` (same modelling notes as `Object.equip`). -/
def Object.unequip (o : Object) (log : List Msg) : Object × List Msg :=
  if o.item.isNone then
    (o, addMsg log "Cannot unequip: not an Item." Color.red)
  else
    match o.equipment with
    | some equipment =>
      if equipment.equipped then
        ({ o with equipment := some { equipment with equipped := false } },
          addMsg log ("unequipped " ++ o.name ++ " from " ++ slotName equipment.slot ++ ".")
            Color.lightYellow)
      else (o, log)
    | none => (o, addMsg log "Cannot unequip: not an Equipment." Color.red)

/-- Index of the first element satisfying `p` (the `iter().position(..)` /
`enumerate`-and-return pattern of the source). -/
def firstIdx (p : Object → Bool) : List Object → Option Nat
  | [] => none
  | a :: l => if p a then some 0 else (firstIdx p l).map (fun i => i + 1)

/-- Whether an object is an equipped item sitting in `slot`. -/
def equippedInSlot (slot : Slot) (item : Object) : Bool :=
  match item.equipment with
  | some e => e.equipped && decide (e.slot = slot)
  | none => false

/-- `get_equipped_in_slot`: first inventory index holding an equipped item
in the given slot. -/
def get_equipped_in_slot (slot : Slot) (inventory : List Object) : Option Nat :=
  firstIdx (equippedInSlot slot) inventory

/-- `is_blocked`: the map tile first, then any blocking object. -/
def is_blocked (x y : Nat) (map : Grid) (objects : List Object) : Bool :=
  (map x y).blocked
    || objects.any (fun object =>
        object.blocks && decide (object.x = x) && decide (object.y = y))

/-- `Vec::swap_remove(i)`: remove index `i`, moving the last element into
its place; returns the removed element with the shrunk vector. -/
def swapRemove (l : List Object) (i : Nat) : Object × List Object :=
  (l.getD i dObj, (l.set i (l.getLastD dObj)).dropLast)

/-- The inventory-full message of `pick_item_up`. -/
def fullInvMsg (object_id : Nat) (g : Game) : String :=
  "Your inventory is full, cannot pick up "
    ++ (g.objects.getD object_id dObj).name ++ "."

/-- `pick_item_up`: move an object from the entity store into the
inventory, auto-equipping when its slot is free; refuse (with one log
message) when the inventory already has 26 entries. -/
def pick_item_up (object_id : Nat) (g : Game) : Game :=
  if 26 ≤ g.inventory.length then
    { g with log := addMsg g.log (fullInvMsg object_id g) Color.red }
  else
    let item := (swapRemove g.objects object_id).1
    let objects := (swapRemove g.objects object_id).2
    let log := addMsg g.log ("You picked up a " ++ item.name ++ "!") Color.green
    let index := g.inventory.length
    let slot := item.equipment.map (fun e => e.slot)
    let inventory := g.inventory ++ [item]
    match slot with
    | some slot =>
      match get_equipped_in_slot slot inventory with
      | none =>
        let ol := (inventory.getD index dObj).equip log
        { g with objects := objects, inventory := inventory.set index ol.1, log := ol.2 }
      | some _ => { g with objects := objects, inventory := inventory, log := log }
    | none => { g with objects := objects, inventory := inventory, log := log }

/-- Update the player entity's stats.  The source indexes
`objects[PLAYER]` (with `PLAYER = 0`) and unwraps the stats option; the
player carries stats in every reachable state, and the model leaves a
stats-less player unchanged where the source would panic. -/
def playerStatMod (f : Stats → Stats) (g : Game) : Game :=
  { g with objects := g.objects.modifyHead (fun o => { o with stats := o.stats.map f }) }

/-- `cast_heal`: bladder += 20, always `UsedUp`. -/
def cast_heal (_inventory_id : Nat) (g : Game) : UseResult × Game :=
  (UseResult.UsedUp, playerStatMod (fun s => { s with bladder := s.bladder + 20 }) g)

/-- `cast_lightning`: energy += 20, always `UsedUp`. -/
def cast_lightning (_inventory_id : Nat) (g : Game) : UseResult × Game :=
  (UseResult.UsedUp, playerStatMod (fun s => { s with energy := s.energy + 20 }) g)

/-- `cast_confuse`: social += 20, always `UsedUp`. -/
def cast_confuse (_inventory_id : Nat) (g : Game) : UseResult × Game :=
  (UseResult.UsedUp, playerStatMod (fun s => { s with social := s.social + 20 }) g)

/-- `cast_fireball`: comfort += 20, always `UsedUp`. -/
def cast_fireball (_inventory_id : Nat) (g : Game) : UseResult × Game :=
  (UseResult.UsedUp, playerStatMod (fun s => { s with comfort := s.comfort + 20 }) g)

/-- `toggle_equipment`: `Cancelled` on a non-equipment; otherwise unequip
an equipped item, or first unequip the current slot occupant and then
equip; always `UsedAndKept`. -/
def toggle_equipment (inventory_id : Nat) (g : Game) : UseResult × Game :=
  match (g.inventory.getD inventory_id dObj).equipment with
  | none => (UseResult.Cancelled, g)
  | some equipment =>
    if equipment.equipped then
      let ol := (g.inventory.getD inventory_id dObj).unequip g.log
      (UseResult.UsedAndKept,
        { g with inventory := g.inventory.set inventory_id ol.1, log := ol.2 })
    else
      let g1 :=
        match get_equipped_in_slot equipment.slot g.inventory with
        | some current =>
          let ol := (g.inventory.getD current dObj).unequip g.log
          { g with inventory := g.inventory.set current ol.1, log := ol.2 }
        | none => g
      let ol := (g1.inventory.getD inventory_id dObj).equip g1.log
      (UseResult.UsedAndKept,
        { g1 with inventory := g1.inventory.set inventory_id ol.1, log := ol.2 })

/-- The `use_function` dispatch table of `use_item`. -/
def dispatchUse : Item → Nat → Game → UseResult × Game
  | Item.Heal => cast_heal
  | Item.Lightning => cast_lightning
  | Item.Confuse => cast_confuse
  | Item.Fireball => cast_fireball
  | Item.Sword => toggle_equipment
  | Item.Shield => toggle_equipment

/-- `use_item`: dispatch on the item kind; `UsedUp` removes the entry
(`Vec::remove`, i.e. shift-remove), `Cancelled` logs a notice. -/
def use_item (inventory_id : Nat) (g : Game) : Game :=
  match (g.inventory.getD inventory_id dObj).item with
  | some item =>
    let rg := dispatchUse item inventory_id g
    match rg.1 with
    | UseResult.UsedUp => { rg.2 with inventory := rg.2.inventory.eraseIdx inventory_id }
    | UseResult.UsedAndKept => rg.2
    | UseResult.Cancelled => { rg.2 with log := addMsg rg.2.log "Cancelled" Color.white }
  | none =>
    let m := "The " ++ (g.inventory.getD inventory_id dObj).name ++ " cannot be used."
    { g with log := addMsg g.log m Color.white }

/-- `drop_item`: shift-remove from the inventory, unequip if it is
equipment, place at the player tile and push back into the store. -/
def drop_item (inventory_id : Nat) (g : Game) : Game :=
  let item := g.inventory.getD inventory_id dObj
  let inventory := g.inventory.eraseIdx inventory_id
  let il := if item.equipment.isSome then item.unequip g.log else (item, g.log)
  let player := g.objects.headD dObj
  let item := il.1.set_pos player.x player.y
  let log := addMsg il.2 ("You dropped a " ++ item.name ++ ".") Color.yellow
  { g with inventory := inventory, log := log, objects := g.objects ++ [item] }

/-- The three item-related player commands (claim C1's operation set). -/
inductive ItemOp where
  | pickUp
  | useIt (choice : Nat)
  | dropIt (choice : Nat)

/-- The game-state effect of the item-related key handlers in
`handle_keys`: 'g' picks up the first object at the player tile carrying
an item; 'i'/'d' run the inventory menu, which returns an index only when
it is a valid inventory position (`inventory_menu` yields `None` on an
empty inventory and `menu` only returns indices below the option count). -/
def run_op (g : Game) : ItemOp → Game
  | ItemOp.pickUp =>
    match firstIdx (fun object =>
        decide (object.pos = (g.objects.headD dObj).pos) && object.item.isSome)
        g.objects with
    | some item_id => pick_item_up item_id g
    | none => g
  | ItemOp.useIt choice =>
    if choice < g.inventory.length then use_item choice g else g
  | ItemOp.dropIt choice =>
    if choice < g.inventory.length then drop_item choice g else g

/-- Run a sequence of item-related player commands. -/
def run_ops (g : Game) (ops : List ItemOp) : Game :=
  ops.foldl run_op g

/-- The random draws consumed for one item inside `place_objects`:
x position, y position, and the weighted kind choice. -/
structure ItemSeed where
  xs : Nat
  ys : Nat
  ks : Nat

/-- The random draws consumed by one candidate room of `make_map`:
width, height, position, the tunnel coin flip, the item count, and the
per-item draws. -/
structure RoomSeed where
  ws : Nat
  hs : Nat
  xs : Nat
  ys : Nat
  coin : Bool
  ns : Nat
  itemSeeds : Nat → ItemSeed

/-- A full random stream for `make_map`, one record per candidate room. -/
abbrev Seeds := Nat → RoomSeed

/-- `create_room`: carve the strict interior of the rectangle to floor. -/
def create_room (room : Rect) (m : Grid) : Grid :=
  fun x y =>
    if room.x1 + 1 ≤ x ∧ x < room.x2 ∧ room.y1 + 1 ≤ y ∧ y < room.y2
    then Tile.empty else m x y

/-- `create_h_tunnel`: carve `min x1 x2 ..= max x1 x2` at row `y`. -/
def create_h_tunnel (x1 x2 y : Nat) (m : Grid) : Grid :=
  fun a b =>
    if min x1 x2 ≤ a ∧ a ≤ max x1 x2 ∧ b = y then Tile.empty else m a b

/-- `create_v_tunnel`: carve `min y1 y2 ..= max y1 y2` at column `x`. -/
def create_v_tunnel (y1 y2 x : Nat) (m : Grid) : Grid :=
  fun a b =>
    if min y1 y2 ≤ b ∧ b ≤ max y1 y2 ∧ a = x then Tile.empty else m a b

/-- The per-kind spawn-weight table of `place_objects`. -/
def item_chances (level : Nat) : List (Item × Nat) :=
  [(Item.Heal, 35),
   (Item.Lightning, from_dungeon_level [⟨4, 25⟩] level),
   (Item.Fireball, from_dungeon_level [⟨6, 25⟩] level),
   (Item.Confuse, from_dungeon_level [⟨2, 10⟩] level),
   (Item.Sword, from_dungeon_level [⟨4, 5⟩] level),
   (Item.Shield, from_dungeon_level [⟨8, 15⟩] level)]

/-- Model of `WeightedIndex::sample`: an arbitrary index among those with a
positive weight (exactly the support of the distribution). -/
def sampleWeighted (weights : List Nat) (seed : Nat) : Nat :=
  let positives := (List.range weights.length).filter (fun i => decide (0 < weights.getD i 0))
  positives.getD (seed % positives.length) 0

/-- The item-construction `match` inside `place_objects`. -/
def mkItemObject (kind : Item) (x y : Nat) : Object :=
  match kind with
  | Item.Heal =>
    { Object.new x y '!' "healing potion" Color.violet false with
      item := some Item.Heal }
  | Item.Lightning =>
    { Object.new x y '#' "scroll of lightning bolt" Color.lightYellow false with
      item := some Item.Lightning }
  | Item.Fireball =>
    { Object.new x y '#' "scroll of fireball" Color.lightYellow false with
      item := some Item.Fireball }
  | Item.Confuse =>
    { Object.new x y '#' "scroll of confusion" Color.lightYellow false with
      item := some Item.Confuse }
  | Item.Sword =>
    { Object.new x y '/' "sword" Color.sky false with
      item := some Item.Sword,
      equipment := some { equipped := false, slot := Slot.RightHand,
                          max_hp_bonus := 0, defense_bonus := 0, power_bonus := 3 } }
  | Item.Shield =>
    { Object.new x y '[' "shield" Color.darkerOrange false with
      item := some Item.Shield,
      equipment := some { equipped := false, slot := Slot.LeftHand,
                          max_hp_bonus := 0, defense_bonus := 1, power_bonus := 0 } }

/-- One iteration of the item-placement loop of `place_objects`. -/
def place_one (room : Rect) (m : Grid) (level : Nat) (s : ItemSeed)
    (objects : List Object) : List Object :=
  let x := gen_range (room.x1 + 1) room.x2 s.xs
  let y := gen_range (room.y1 + 1) room.y2 s.ys
  if is_blocked x y m objects then objects
  else
    let chances := item_chances level
    let idx := sampleWeighted (chances.map (fun c => c.2)) s.ks
    let kind := (chances.getD idx (Item.Heal, 35)).1
    objects ++ [{ mkItemObject kind x y with always_visible := true }]

/-- `place_objects`: choose a number of items from the leveled table and
place each on an unoccupied room tile. -/
def place_objects (room : Rect) (m : Grid) (objects : List Object)
    (level : Nat) (seed : RoomSeed) : List Object :=
  let max_items := from_dungeon_level [⟨1, 1⟩, ⟨4, 2⟩] level
  let num_items := gen_range 0 (max_items + 1) seed.ns
  (List.range num_items).foldl
    (fun objs i => place_one room m level (seed.itemSeeds i) objs) objects

/-- The evolving state of the `make_map` room loop. -/
structure GenState where
  map : Grid
  objects : List Object
  rooms : List Rect

/-- One candidate-room iteration of `make_map`: sample a rectangle, reject
it if it intersects an accepted room, otherwise carve it, populate it,
seed the player position (first room) or tunnel to the previous room. -/
def make_map_step (level : Nat) (seed : RoomSeed) (s : GenState) : GenState :=
  let w := gen_range ROOM_MIN_SIZE (ROOM_MAX_SIZE + 1) seed.ws
  let h := gen_range ROOM_MIN_SIZE (ROOM_MAX_SIZE + 1) seed.hs
  let x := gen_range 0 (MAP_WIDTH - w) seed.xs
  let y := gen_range 0 (MAP_HEIGHT - h) seed.ys
  let new_room := Rect.new x y w h
  let failed := s.rooms.any (fun other_room => new_room.intersects_with other_room)
  if failed then s
  else
    let map := create_room new_room s.map
    let objects := place_objects new_room map s.objects level seed
    let c := new_room.center
    if s.rooms.isEmpty then
      { map := map, objects := objects.modifyHead (fun o => o.set_pos c.1 c.2),
        rooms := [new_room] }
    else
      let prev := (s.rooms.getLastD new_room).center
      let map :=
        if seed.coin then
          create_v_tunnel prev.2 c.2 c.1 (create_h_tunnel prev.1 c.1 prev.2 map)
        else
          create_h_tunnel prev.1 c.1 c.2 (create_v_tunnel prev.2 c.2 prev.1 map)
      { map := map, objects := objects, rooms := s.rooms ++ [new_room] }

/-- The first `n` iterations of the `make_map` room loop, started on a
fully walled grid with the store truncated to the player. -/
def make_map_loop (level : Nat) (seeds : Seeds) (objects : List Object) :
    Nat → GenState
  | 0 => { map := fun _ _ => Tile.wall, objects := objects.take 1, rooms := [] }
  | n + 1 => make_map_step level (seeds n) (make_map_loop level seeds objects n)

/-- The generator state after all `MAX_ROOMS` candidate iterations. -/
def make_map_state (objects : List Object) (level : Nat) (seeds : Seeds) :
    GenState :=
  make_map_loop level seeds objects MAX_ROOMS

/-- The stairs object pushed at the end of `make_map`. -/
def mkStairs (x y : Nat) : Object :=
  { Object.new x y '<' "stairs" Color.white false with always_visible := true }

/-- `make_map`: run the room loop, then place the stairs at the center of
the last accepted room (`rooms[rooms.len() - 1]`, which panics when no
room was accepted; the model takes a default there and the development
proves the room list nonempty). -/
def make_map (objects : List Object) (level : Nat) (seeds : Seeds) :
    Grid × List Object :=
  let s := make_map_state objects level seeds
  let c := (s.rooms.getLastD (Rect.new 0 0 0 0)).center
  (s.map, s.objects ++ [mkStairs c.1 c.2])

/-- `next_level`: log, bump the level counter, regenerate the map
(`initialise_fov` only rebuilds tcod-side state and is out of the model). -/
def next_level (g : Game) (seeds : Seeds) : Game :=
  { g with
    log := addMsg g.log
      "After a rare moment of peace, you descend deeper into the heart of the dungeon..."
      Color.red,
    dungeon_level := g.dungeon_level + 1,
    map := (make_map g.objects (g.dungeon_level + 1) seeds).1,
    objects := (make_map g.objects (g.dungeon_level + 1) seeds).2 }

/-- The freshly created player object of `new_game`. -/
def newPlayer : Object :=
  { Object.new 0 0 '@' "player" Color.white true with
    alive := true,
    stats := some { base_max_all_stats := 100, hunger := 100, comfort := 100,
                    hygiene := 100, bladder := 100, energy := 100, «fun» := 100,
                    social := 100, room := 100,
                    on_death := DeathCallback.Player } }

/-- The initial equipment of `new_game`: a dagger, already equipped. -/
def starting_dagger : Object :=
  { Object.new 0 0 '-' "dagger" Color.sky false with
    item := some Item.Sword,
    equipment := some { equipped := true, slot := Slot.LeftHand,
                        max_hp_bonus := 0, defense_bonus := 0, power_bonus := 2 } }

/-- `new_game`: player with full stats, a level-1 map, a dagger in the
inventory and a welcome message. -/
def new_game (seeds : Seeds) : Game :=
  let objects := [newPlayer]
  let level := 1
  let mo := make_map objects level seeds
  let game : Game :=
    { map := mo.1, log := [], inventory := [], dungeon_level := level,
      objects := mo.2 }
  let game := { game with inventory := game.inventory ++ [starting_dagger] }
  { game with log := addMsg game.log "Welcome to your new home!" Color.red }

/-- Default rectangle used to totalise `rooms[rooms.len() - 1]`; the room
list is proved nonempty wherever it is accessed. -/
def dfltR : Rect := Rect.new 0 0 0 0

/-! ### Generic list helper lemmas -/

theorem find?_eq_getLast?_filter (p : Transition → Bool) (l : List Transition) :
    l.reverse.find? p = (l.filter p).getLast? := by
  calc l.reverse.find? p
      = (l.reverse.filter p).head? := (List.filter_head? p l.reverse).symm
    _ = ((l.filter p).reverse).head? := by rw [List.filter_reverse]
    _ = (l.filter p).getLast? := List.head?_reverse _

theorem firstIdx_none_spec (p : Object → Bool) (l : List Object)
    (h : firstIdx p l = none) : ∀ x ∈ l, p x = false := by
  induction l with
  | nil => simp
  | cons a t ih =>
    intro x hx
    rw [firstIdx] at h
    by_cases hpa : p a
    · simp [hpa] at h
    · rcases List.mem_cons.mp hx with rfl | hx
      · simpa using hpa
      · exact ih (by rcases hf : firstIdx p t with _ | j <;> simp [hpa, hf] at h ⊢) x hx

theorem firstIdx_some_spec (p : Object → Bool) (l : List Object) (j : Nat)
    (d : Object) (h : firstIdx p l = some j) :
    j < l.length ∧ p (l.getD j d) = true := by
  induction l generalizing j with
  | nil => simp [firstIdx] at h
  | cons a t ih =>
    rw [firstIdx] at h
    by_cases hpa : p a
    · simp [hpa] at h
      subst h
      simpa using hpa
    · rcases hf : firstIdx p t with _ | i
      · simp [hpa, hf] at h
      · simp [hpa, hf] at h
        subst h
        obtain ⟨h1, h2⟩ := ih i hf
        refine ⟨by simpa using h1, ?_⟩
        simpa [List.getD] using h2

theorem countP_set_balance (p : Object → Bool) (l : List Object) (i : Nat)
    (a d : Object) (h : i < l.length) :
    (l.set i a).countP p + (cond (p (l.getD i d)) 1 0) =
      l.countP p + (cond (p a) 1 0) := by
  induction l generalizing i with
  | nil => simp at h
  | cons b t ih =>
    cases i with
    | zero =>
      simp only [List.set, List.getD_cons_zero, List.countP_cons]
      cases hpb : p b <;> cases hpa : p a <;> simp [hpb, hpa]
    | succ n =>
      have ih' := ih n (by simpa using h)
      simp only [List.set_cons_succ, List.getD_cons_succ, List.countP_cons]
      omega

theorem countP_pos_of_getD (p : Object → Bool) (l : List Object) (i : Nat)
    (d : Object) (h : i < l.length) (hp : p (l.getD i d) = true) :
    1 ≤ l.countP p := by
  have hm : l.getD i d ∈ l := by
    rw [List.getD_eq_getElem l d h]
    exact List.getElem_mem h
  exact List.countP_pos_iff.mpr ⟨l.getD i d, hm, hp⟩

/-! ### C2: `from_dungeon_level` semantics -/

/-- Claim C2: for every transition table and level, `from_dungeon_level`
returns the value of the last table entry whose threshold does not exceed
the level (scanning the table in descending order) and 0 when no entry
matches; in particular for the table `[(1,1),(4,2)]` the levels
0, 1, 3, 4, 100 yield 0, 1, 1, 2, 2. -/
theorem C2_from_dungeon_level :
    (∀ (table : List Transition) (level : Nat),
      from_dungeon_level table level =
        (((table.filter (fun t => decide (t.level ≤ level))).getLast?).map
          Transition.value).getD 0) ∧
    from_dungeon_level [⟨1, 1⟩, ⟨4, 2⟩] 0 = 0 ∧
    from_dungeon_level [⟨1, 1⟩, ⟨4, 2⟩] 1 = 1 ∧
    from_dungeon_level [⟨1, 1⟩, ⟨4, 2⟩] 3 = 1 ∧
    from_dungeon_level [⟨1, 1⟩, ⟨4, 2⟩] 4 = 2 ∧
    from_dungeon_level [⟨1, 1⟩, ⟨4, 2⟩] 100 = 2 := by
  refine ⟨?_, by decide, by decide, by decide, by decide, by decide⟩
  intro table level
  cases h : (table.filter (fun t => decide (t.level ≤ level))).getLast? <;>
    simp [from_dungeon_level, find?_eq_getLast?_filter, h]

/-! ### C6: pickup at a full inventory -/

/-- Claim C6: with 26 items already in the inventory, `pick_item_up`
changes neither the inventory nor the entity store (the item stays on the
map) and appends exactly one message to the log. -/
theorem C6_pick_item_up_full (object_id : Nat) (g : Game)
    (h : g.inventory.length = 26) :
    pick_item_up object_id g =
      { g with log := addMsg g.log (fullInvMsg object_id g) Color.red } := by
  rw [pick_item_up, if_pos (by omega)]

/-- A concrete game whose inventory holds 26 items. -/
def g26 : Game :=
  { map := fun _ _ => Tile.wall, log := [], dungeon_level := 1,
    inventory := List.replicate 26 starting_dagger, objects := [newPlayer] }

/-- Witness for C6 at a concrete 26-item game. -/
theorem C6_pick_item_up_full_witness :
    g26.inventory.length = 26 ∧
    pick_item_up 0 g26 =
      { g26 with log := addMsg g26.log (fullInvMsg 0 g26) Color.red } :=
  ⟨by decide, C6_pick_item_up_full 0 g26 (by decide)⟩

/-! ### C9: the four consumable effect routines -/

/-- `playerStatMod` rewritten as an explicit head update (requires the
store to hold a stats-carrying player at index 0). -/
theorem playerStatMod_eq (f : Stats → Stats) (g : Game) (st : Stats)
    (h : (g.objects.headD dObj).stats = some st) :
    playerStatMod f g =
      { g with objects :=
          { g.objects.headD dObj with stats := some (f st) } :: g.objects.tail } := by
  cases hg : g.objects with
  | nil =>
    rw [hg] at h
    simp [dObj, Object.new] at h
  | cons a t =>
    rw [hg] at h
    simp only [List.headD_cons] at h
    simp [playerStatMod, hg, List.modifyHead, h]

/-- Claim C9: using a Heal adds exactly 20 to bladder, Lightning to
energy, Confuse to social, Fireball to comfort; each routine reports
`UsedUp` and changes nothing else (no other gauge, no other entity, no
other session component). -/
theorem C9_consumable_effects (g : Game) (i : Nat) (st : Stats)
    (h : (g.objects.headD dObj).stats = some st) :
    ((cast_heal i g).1 = UseResult.UsedUp ∧
      (cast_heal i g).2 = { g with objects :=
        { g.objects.headD dObj with
          stats := some { st with bladder := st.bladder + 20 } } :: g.objects.tail }) ∧
    ((cast_lightning i g).1 = UseResult.UsedUp ∧
      (cast_lightning i g).2 = { g with objects :=
        { g.objects.headD dObj with
          stats := some { st with energy := st.energy + 20 } } :: g.objects.tail }) ∧
    ((cast_confuse i g).1 = UseResult.UsedUp ∧
      (cast_confuse i g).2 = { g with objects :=
        { g.objects.headD dObj with
          stats := some { st with social := st.social + 20 } } :: g.objects.tail }) ∧
    ((cast_fireball i g).1 = UseResult.UsedUp ∧
      (cast_fireball i g).2 = { g with objects :=
        { g.objects.headD dObj with
          stats := some { st with comfort := st.comfort + 20 } } :: g.objects.tail }) :=
  ⟨⟨rfl, playerStatMod_eq _ g st h⟩, ⟨rfl, playerStatMod_eq _ g st h⟩,
    ⟨rfl, playerStatMod_eq _ g st h⟩, ⟨rfl, playerStatMod_eq _ g st h⟩⟩

/-- A minimal concrete game holding only the fresh player. -/
def gPlayerOnly : Game :=
  { map := fun _ _ => Tile.wall, log := [], dungeon_level := 1,
    inventory := [], objects := [newPlayer] }

/-- The stats record of the fresh player. -/
def newPlayerStats : Stats :=
  { base_max_all_stats := 100, hunger := 100, comfort := 100, hygiene := 100,
    bladder := 100, energy := 100, «fun» := 100, social := 100, room := 100,
    on_death := DeathCallback.Player }

/-- Witness for C9 at a concrete game. -/
theorem C9_consumable_effects_witness :
    (gPlayerOnly.objects.headD dObj).stats = some newPlayerStats ∧
    ((cast_heal 0 gPlayerOnly).1 = UseResult.UsedUp ∧
      (cast_heal 0 gPlayerOnly).2 = { gPlayerOnly with objects :=
        { gPlayerOnly.objects.headD dObj with
          stats := some { newPlayerStats with
            bladder := newPlayerStats.bladder + 20 } } :: gPlayerOnly.objects.tail }) ∧
    ((cast_lightning 0 gPlayerOnly).1 = UseResult.UsedUp ∧
      (cast_lightning 0 gPlayerOnly).2 = { gPlayerOnly with objects :=
        { gPlayerOnly.objects.headD dObj with
          stats := some { newPlayerStats with
            energy := newPlayerStats.energy + 20 } } :: gPlayerOnly.objects.tail }) ∧
    ((cast_confuse 0 gPlayerOnly).1 = UseResult.UsedUp ∧
      (cast_confuse 0 gPlayerOnly).2 = { gPlayerOnly with objects :=
        { gPlayerOnly.objects.headD dObj with
          stats := some { newPlayerStats with
            social := newPlayerStats.social + 20 } } :: gPlayerOnly.objects.tail }) ∧
    ((cast_fireball 0 gPlayerOnly).1 = UseResult.UsedUp ∧
      (cast_fireball 0 gPlayerOnly).2 = { gPlayerOnly with objects :=
        { gPlayerOnly.objects.headD dObj with
          stats := some { newPlayerStats with
            comfort := newPlayerStats.comfort + 20 } } :: gPlayerOnly.objects.tail }) :=
  ⟨rfl, C9_consumable_effects gPlayerOnly 0 newPlayerStats rfl⟩

/-! ### C5: use-item outcome contract -/

theorem getD_set_self (l : List Object) (i : Nat) (a d : Object)
    (h : i < l.length) : (l.set i a).getD i d = a := by
  rw [List.getD_eq_getElem _ d (by simpa using h)]
  simp [List.getElem_set_self, h]

theorem getD_set_ne (l : List Object) (i j : Nat) (a d : Object)
    (h : i ≠ j) : (l.set j a).getD i d = l.getD i d := by
  simp [List.getD, List.getElem?_set_ne (Ne.symm h)]

/-- An object with its equipped flag cleared: two objects with the same
`stripEquipped` image are the same item up to the equipped flag. -/
def stripEquipped (o : Object) : Object :=
  { o with equipment := o.equipment.map (fun e => { e with equipped := false }) }

/-- `Object::unequip` on an actual item with equipment always results in
the same object with the equipped flag cleared. -/
theorem unequip_result (o : Object) (log : List Msg) (e : Equipment)
    (hitem : o.item.isSome) (he : o.equipment = some e) :
    (o.unequip log).1 = { o with equipment := some { e with equipped := false } } := by
  have hn : o.item.isNone = false := by
    cases ho : o.item with
    | none => rw [ho] at hitem; simp at hitem
    | some k => rfl
  cases heq : e.equipped with
  | true => simp [Object.unequip, hn, he, heq]
  | false =>
    have he' : ({ e with equipped := false } : Equipment) = e := by
      cases e
      simp_all
    have hid : (o.unequip log).1 = o := by simp [Object.unequip, hn, he, heq]
    rw [hid, he', ← he]

/-- `Object::equip` on an actual item with equipment always results in
the same object with the equipped flag set. -/
theorem equip_result (o : Object) (log : List Msg) (e : Equipment)
    (hitem : o.item.isSome) (he : o.equipment = some e) :
    (o.equip log).1 = { o with equipment := some { e with equipped := true } } := by
  have hn : o.item.isNone = false := by
    cases ho : o.item with
    | none => rw [ho] at hitem; simp at hitem
    | some k => rfl
  cases heq : e.equipped with
  | false => simp [Object.equip, hn, he, heq]
  | true =>
    have he' : ({ e with equipped := true } : Equipment) = e := by
      cases e
      simp_all
    have hid : (o.equip log).1 = o := by simp [Object.equip, hn, he, heq]
    rw [hid, he', ← he]

/-- Case analysis of `use_item` when the dispatched routine is
`toggle_equipment` (Sword and Shield). -/
theorem toggle_outcome_cases (g : Game) (i : Nat) (k : Item)
    (hi : i < g.inventory.length)
    (hk : (g.inventory.getD i dObj).item = some k)
    (hd : dispatchUse k = toggle_equipment) :
    ((dispatchUse k i g).1 = UseResult.UsedUp →
      (use_item i g).inventory = g.inventory.eraseIdx i) ∧
    ((dispatchUse k i g).1 = UseResult.UsedAndKept →
      (use_item i g).inventory.length = g.inventory.length ∧
      stripEquipped ((use_item i g).inventory.getD i dObj) =
        stripEquipped (g.inventory.getD i dObj)) ∧
    ((dispatchUse k i g).1 = UseResult.Cancelled →
      use_item i g = { g with log := addMsg g.log "Cancelled" Color.white }) := by
  have hsome : (g.inventory.getD i dObj).item.isSome := by rw [hk]; rfl
  rw [hd]
  rcases he : (g.inventory.getD i dObj).equipment with _ | e
  · have ht : toggle_equipment i g = (UseResult.Cancelled, g) := by
      simp [toggle_equipment, he, -List.getD_eq_getElem?_getD]
    have hu : use_item i g = { g with log := addMsg g.log "Cancelled" Color.white } := by
      simp only [use_item, hk, hd, ht]
    refine ⟨fun hcon => ?_, fun hcon => ?_, fun _ => hu⟩
    · rw [ht] at hcon; simp at hcon
    · rw [ht] at hcon; simp at hcon
  · cases heq : e.equipped with
    | true =>
      have ht : toggle_equipment i g =
          (UseResult.UsedAndKept,
            { g with
              inventory := g.inventory.set i
                ((g.inventory.getD i dObj).unequip g.log).1,
              log := ((g.inventory.getD i dObj).unequip g.log).2 }) := by
        simp [toggle_equipment, he, heq, -List.getD_eq_getElem?_getD]
      have hu : use_item i g =
          { g with
            inventory := g.inventory.set i
              ((g.inventory.getD i dObj).unequip g.log).1,
            log := ((g.inventory.getD i dObj).unequip g.log).2 } := by
        simp only [use_item, hk, hd, ht]
      refine ⟨fun hcon => ?_, fun _ => ?_, fun hcon => ?_⟩
      · rw [ht] at hcon; simp at hcon
      · rw [hu]
        refine ⟨by simp, ?_⟩
        rw [show ({ g with
              inventory := g.inventory.set i
                ((g.inventory.getD i dObj).unequip g.log).1,
              log := ((g.inventory.getD i dObj).unequip g.log).2 } : Game).inventory
            = g.inventory.set i ((g.inventory.getD i dObj).unequip g.log).1 from rfl,
          getD_set_self _ _ _ _ (by simpa using hi),
          unequip_result _ _ _ hsome he]
        simp [stripEquipped, he, -List.getD_eq_getElem?_getD]
      · rw [ht] at hcon; simp at hcon
    | false =>
      rcases hc : get_equipped_in_slot e.slot g.inventory with _ | j
      · have ht : toggle_equipment i g =
            (UseResult.UsedAndKept,
              { g with
                inventory := g.inventory.set i
                  ((g.inventory.getD i dObj).equip g.log).1,
                log := ((g.inventory.getD i dObj).equip g.log).2 }) := by
          simp [toggle_equipment, he, heq, hc, -List.getD_eq_getElem?_getD]
        have hu : use_item i g =
            { g with
              inventory := g.inventory.set i
                ((g.inventory.getD i dObj).equip g.log).1,
              log := ((g.inventory.getD i dObj).equip g.log).2 } := by
          simp only [use_item, hk, hd, ht]
        refine ⟨fun hcon => ?_, fun _ => ?_, fun hcon => ?_⟩
        · rw [ht] at hcon; simp at hcon
        · rw [hu]
          refine ⟨by simp, ?_⟩
          rw [show ({ g with
                inventory := g.inventory.set i
                  ((g.inventory.getD i dObj).equip g.log).1,
                log := ((g.inventory.getD i dObj).equip g.log).2 } : Game).inventory
              = g.inventory.set i ((g.inventory.getD i dObj).equip g.log).1 from rfl,
            getD_set_self _ _ _ _ (by simpa using hi),
            equip_result _ _ _ hsome he]
          simp [stripEquipped, he, -List.getD_eq_getElem?_getD]
        · rw [ht] at hcon; simp at hcon
      · obtain ⟨hjlen, hjp⟩ :=
          firstIdx_some_spec (equippedInSlot e.slot) g.inventory j dObj hc
        have hij : i ≠ j := by
          intro hcon
          rw [← hcon] at hjp
          simp [equippedInSlot, he, heq, -List.getD_eq_getElem?_getD] at hjp
        have ht : toggle_equipment i g =
            (UseResult.UsedAndKept,
              { g with
                inventory := (g.inventory.set j
                    ((g.inventory.getD j dObj).unequip g.log).1).set i
                  (((g.inventory.set j
                      ((g.inventory.getD j dObj).unequip g.log).1).getD i dObj).equip
                    ((g.inventory.getD j dObj).unequip g.log).2).1,
                log := (((g.inventory.set j
                      ((g.inventory.getD j dObj).unequip g.log).1).getD i dObj).equip
                    ((g.inventory.getD j dObj).unequip g.log).2).2 }) := by
          simp [toggle_equipment, he, heq, hc, -List.getD_eq_getElem?_getD]
        have hu : use_item i g =
            { g with
              inventory := (g.inventory.set j
                  ((g.inventory.getD j dObj).unequip g.log).1).set i
                (((g.inventory.set j
                    ((g.inventory.getD j dObj).unequip g.log).1).getD i dObj).equip
                  ((g.inventory.getD j dObj).unequip g.log).2).1,
              log := (((g.inventory.set j
                    ((g.inventory.getD j dObj).unequip g.log).1).getD i dObj).equip
                  ((g.inventory.getD j dObj).unequip g.log).2).2 } := by
          simp only [use_item, hk, hd, ht]
        refine ⟨fun hcon => ?_, fun _ => ?_, fun hcon => ?_⟩
        · rw [ht] at hcon; simp at hcon
        · rw [hu]
          refine ⟨by simp, ?_⟩
          rw [show ({ g with
                inventory := (g.inventory.set j
                    ((g.inventory.getD j dObj).unequip g.log).1).set i
                  (((g.inventory.set j
                      ((g.inventory.getD j dObj).unequip g.log).1).getD i dObj).equip
                    ((g.inventory.getD j dObj).unequip g.log).2).1,
                log := (((g.inventory.set j
                      ((g.inventory.getD j dObj).unequip g.log).1).getD i dObj).equip
                    ((g.inventory.getD j dObj).unequip g.log).2).2 } : Game).inventory
              = (g.inventory.set j
                  ((g.inventory.getD j dObj).unequip g.log).1).set i
                (((g.inventory.set j
                    ((g.inventory.getD j dObj).unequip g.log).1).getD i dObj).equip
                  ((g.inventory.getD j dObj).unequip g.log).2).1 from rfl,
            getD_set_self _ _ _ _ (by simpa using hi),
            getD_set_ne _ _ _ _ _ hij,
            equip_result _ _ _ hsome he]
          simp [stripEquipped, he, -List.getD_eq_getElem?_getD]
        · rw [ht] at hcon; simp at hcon

/-- Claim C5: for an inventory index holding an entity with an item kind,
`use_item` removes the entry exactly when the dispatched routine reports
`UsedUp`; on `UsedAndKept` the item is still present at its index (same
object up to the equipped flag, inventory length unchanged); on
`Cancelled` the game is unchanged except for one cancellation message. -/
theorem C5_use_item_outcomes (g : Game) (i : Nat) (k : Item)
    (hi : i < g.inventory.length)
    (hk : (g.inventory.getD i dObj).item = some k) :
    ((dispatchUse k i g).1 = UseResult.UsedUp →
      (use_item i g).inventory = g.inventory.eraseIdx i) ∧
    ((dispatchUse k i g).1 = UseResult.UsedAndKept →
      (use_item i g).inventory.length = g.inventory.length ∧
      stripEquipped ((use_item i g).inventory.getD i dObj) =
        stripEquipped (g.inventory.getD i dObj)) ∧
    ((dispatchUse k i g).1 = UseResult.Cancelled →
      use_item i g = { g with log := addMsg g.log "Cancelled" Color.white }) := by
  have hsome : (g.inventory.getD i dObj).item.isSome := by rw [hk]; rfl
  cases k with
  | Heal =>
    refine ⟨fun _ => ?_, fun hc => by simp [dispatchUse, cast_heal] at hc,
      fun hc => by simp [dispatchUse, cast_heal] at hc⟩
    simp [use_item, hk, dispatchUse, cast_heal, playerStatMod, -List.getD_eq_getElem?_getD]
  | Lightning =>
    refine ⟨fun _ => ?_, fun hc => by simp [dispatchUse, cast_lightning] at hc,
      fun hc => by simp [dispatchUse, cast_lightning] at hc⟩
    simp [use_item, hk, dispatchUse, cast_lightning, playerStatMod, -List.getD_eq_getElem?_getD]
  | Confuse =>
    refine ⟨fun _ => ?_, fun hc => by simp [dispatchUse, cast_confuse] at hc,
      fun hc => by simp [dispatchUse, cast_confuse] at hc⟩
    simp [use_item, hk, dispatchUse, cast_confuse, playerStatMod, -List.getD_eq_getElem?_getD]
  | Fireball =>
    refine ⟨fun _ => ?_, fun hc => by simp [dispatchUse, cast_fireball] at hc,
      fun hc => by simp [dispatchUse, cast_fireball] at hc⟩
    simp [use_item, hk, dispatchUse, cast_fireball, playerStatMod, -List.getD_eq_getElem?_getD]
  | Sword =>
    exact toggle_outcome_cases g i Item.Sword hi hk rfl
  | Shield =>
    exact toggle_outcome_cases g i Item.Shield hi hk rfl

/-- A concrete game holding the starting dagger as only inventory entry. -/
def gDagger : Game :=
  { map := fun _ _ => Tile.wall, log := [], dungeon_level := 1,
    inventory := [starting_dagger], objects := [newPlayer] }

/-- Witness for C5 at a concrete game holding an equipped dagger. -/
theorem C5_use_item_outcomes_witness :
    (0 < gDagger.inventory.length ∧
      (gDagger.inventory.getD 0 dObj).item = some Item.Sword) ∧
    (((dispatchUse Item.Sword 0 gDagger).1 = UseResult.UsedUp →
        (use_item 0 gDagger).inventory = gDagger.inventory.eraseIdx 0) ∧
      ((dispatchUse Item.Sword 0 gDagger).1 = UseResult.UsedAndKept →
        (use_item 0 gDagger).inventory.length = gDagger.inventory.length ∧
        stripEquipped ((use_item 0 gDagger).inventory.getD 0 dObj) =
          stripEquipped (gDagger.inventory.getD 0 dObj)) ∧
      ((dispatchUse Item.Sword 0 gDagger).1 = UseResult.Cancelled →
        use_item 0 gDagger =
          { gDagger with log := addMsg gDagger.log "Cancelled" Color.white })) :=
  ⟨⟨by decide, rfl⟩, C5_use_item_outcomes gDagger 0 Item.Sword (by decide) rfl⟩

/-! ### C7: the gauges are not clamped to their stated bound -/

/-- A seed stream under which the level-1 map has one room with a healing
potion placed at the room center (where the player also starts). -/
def seedsH : Seeds := fun k =>
  if k = 0 then
    { ws := 0, hs := 0, xs := 0, ys := 0, coin := false, ns := 1,
      itemSeeds := fun _ => { xs := 2, ys := 2, ks := 0 } }
  else
    { ws := 0, hs := 0, xs := 0, ys := 0, coin := false, ns := 0,
      itemSeeds := fun _ => { xs := 0, ys := 0, ks := 0 } }

/-- A reachable game state violating claim C7: start a new game (all
gauges at `base_max_all_stats = 100`), pick up the healing potion under
the player, and use it. -/
def gC7 : Game := run_ops (new_game seedsH) [ItemOp.pickUp, ItemOp.useIt 1]

/-- Counterexample to claim C7: in the reachable state `gC7` the player's
bladder gauge is 120 while `base_max_all_stats` is 100, so using a Heal
item does push a gauge above `base_max_all_stats` and the interval
`[0, base_max_all_stats]` is not an invariant. -/
theorem C7_gauge_bound_counterexample :
    (gC7.objects.headD dObj).stats.map Stats.bladder = some 120 ∧
    (gC7.objects.headD dObj).stats.map Stats.base_max_all_stats = some 100 ∧
    ¬ ((120 : Int) ≤ 100) :=
  ⟨by decide, by decide, by decide⟩

/-- Claim C7 amended: the four consumable effects add exactly 20 to their
gauge with no clamping.  The lower bound 0 is preserved (gauges are only
ever incremented), but the upper bound is not: whenever the gauge already
sits at or above `base_max_all_stats` (as in a fresh game), using the item
pushes it strictly above the bound. -/
theorem C7_gauge_bounds_amended (g : Game) (i : Nat) (st : Stats)
    (h : (g.objects.headD dObj).stats = some st) :
    ((cast_heal i g).2.objects.headD dObj).stats
        = some { st with bladder := st.bladder + 20 } ∧
    ((cast_lightning i g).2.objects.headD dObj).stats
        = some { st with energy := st.energy + 20 } ∧
    ((cast_confuse i g).2.objects.headD dObj).stats
        = some { st with social := st.social + 20 } ∧
    ((cast_fireball i g).2.objects.headD dObj).stats
        = some { st with comfort := st.comfort + 20 } ∧
    (0 ≤ st.bladder → 0 ≤ st.bladder + 20) ∧
    (st.base_max_all_stats ≤ st.bladder →
      st.base_max_all_stats < st.bladder + 20) := by
  refine ⟨?_, ?_, ?_, ?_, by omega, by omega⟩
  · simp only [cast_heal]
    rw [playerStatMod_eq _ g st h]
    rfl
  · simp only [cast_lightning]
    rw [playerStatMod_eq _ g st h]
    rfl
  · simp only [cast_confuse]
    rw [playerStatMod_eq _ g st h]
    rfl
  · simp only [cast_fireball]
    rw [playerStatMod_eq _ g st h]
    rfl

/-- Witness for the amended C7 at a concrete game. -/
theorem C7_gauge_bounds_amended_witness :
    (gPlayerOnly.objects.headD dObj).stats = some newPlayerStats ∧
    (((cast_heal 0 gPlayerOnly).2.objects.headD dObj).stats
        = some { newPlayerStats with bladder := newPlayerStats.bladder + 20 } ∧
      ((cast_lightning 0 gPlayerOnly).2.objects.headD dObj).stats
        = some { newPlayerStats with energy := newPlayerStats.energy + 20 } ∧
      ((cast_confuse 0 gPlayerOnly).2.objects.headD dObj).stats
        = some { newPlayerStats with social := newPlayerStats.social + 20 } ∧
      ((cast_fireball 0 gPlayerOnly).2.objects.headD dObj).stats
        = some { newPlayerStats with comfort := newPlayerStats.comfort + 20 } ∧
      (0 ≤ newPlayerStats.bladder → 0 ≤ newPlayerStats.bladder + 20) ∧
      (newPlayerStats.base_max_all_stats ≤ newPlayerStats.bladder →
        newPlayerStats.base_max_all_stats < newPlayerStats.bladder + 20)) :=
  ⟨rfl, C7_gauge_bounds_amended gPlayerOnly 0 newPlayerStats rfl⟩

/-! ### C3: accepted rooms never overlap -/

/-- `Rect::intersects_with` is symmetric. -/
theorem intersects_with_symm (a b : Rect) :
    a.intersects_with b = b.intersects_with a := by
  rw [Bool.eq_iff_iff]
  simp only [Rect.intersects_with, Bool.and_eq_true, decide_eq_true_eq]
  tauto

/-- The accepted-room list of the generator. -/
def make_map_rooms (objects : List Object) (level : Nat) (seeds : Seeds) :
    List Rect :=
  (make_map_state objects level seeds).rooms

/-- One loop iteration preserves pairwise disjointness of the accepted
rooms: a candidate is accepted only after the `any`-intersection test over
all previously accepted rooms fails. -/
theorem make_map_step_pairwise (level : Nat) (seed : RoomSeed) (s : GenState)
    (h : s.rooms.Pairwise (fun a b => a.intersects_with b = false)) :
    (make_map_step level seed s).rooms.Pairwise
      (fun a b => a.intersects_with b = false) := by
  rw [make_map_step]
  cases hF : s.rooms.any (fun other_room =>
      (Rect.new (gen_range 0 (MAP_WIDTH - gen_range ROOM_MIN_SIZE (ROOM_MAX_SIZE + 1) seed.ws) seed.xs)
        (gen_range 0 (MAP_HEIGHT - gen_range ROOM_MIN_SIZE (ROOM_MAX_SIZE + 1) seed.hs) seed.ys)
        (gen_range ROOM_MIN_SIZE (ROOM_MAX_SIZE + 1) seed.ws)
        (gen_range ROOM_MIN_SIZE (ROOM_MAX_SIZE + 1) seed.hs)).intersects_with other_room) with
  | true => simpa [hF] using h
  | false =>
    have hall := List.any_eq_false.mp hF
    cases hE : s.rooms.isEmpty with
    | true =>
      have : s.rooms = [] := List.isEmpty_iff.mp hE
      simp [hF, hE, this]
    | false =>
      simp only [hF, hE, Bool.false_eq_true, if_false]
      rw [List.pairwise_append]
      refine ⟨h, List.pairwise_singleton _ _, ?_⟩
      intro a ha b hb
      simp only [List.mem_singleton] at hb
      subst hb
      rw [intersects_with_symm]
      exact Bool.eq_false_iff.mpr (hall a ha)
  
/-- Every prefix of the room loop yields pairwise disjoint rooms. -/
theorem make_map_loop_pairwise (level : Nat) (seeds : Seeds)
    (objects : List Object) (n : Nat) :
    (make_map_loop level seeds objects n).rooms.Pairwise
      (fun a b => a.intersects_with b = false) := by
  induction n with
  | zero => simp [make_map_loop]
  | succ n ih => exact make_map_step_pairwise level (seeds n) _ ih

/-- Claim C3: in every generated map, two distinct accepted rooms never
overlap under the inclusive bounding-box test. -/
theorem C3_rooms_disjoint (objects : List Object) (level : Nat) (seeds : Seeds)
    (i j : Nat) (hi : i < (make_map_rooms objects level seeds).length)
    (hj : j < (make_map_rooms objects level seeds).length) (hij : i ≠ j) :
    ((make_map_rooms objects level seeds).get ⟨i, hi⟩).intersects_with
      ((make_map_rooms objects level seeds).get ⟨j, hj⟩) = false := by
  have hp : (make_map_rooms objects level seeds).Pairwise
      (fun a b => a.intersects_with b = false) :=
    make_map_loop_pairwise level seeds objects MAX_ROOMS
  rcases Nat.lt_or_ge i j with hlt | hge
  · exact (List.pairwise_iff_get.mp hp) ⟨i, hi⟩ ⟨j, hj⟩ (by simpa using hlt)
  · have hlt : j < i := Nat.lt_of_le_of_ne hge (Ne.symm hij)
    rw [intersects_with_symm]
    exact (List.pairwise_iff_get.mp hp) ⟨j, hj⟩ ⟨i, hi⟩ (by simpa using hlt)

/-- A seed stream accepting (at least) two rooms in distinct columns. -/
def seedsW : Seeds := fun k =>
  { ws := 0, hs := 0, xs := 12 * k, ys := 0, coin := false, ns := 0,
    itemSeeds := fun _ => { xs := 0, ys := 0, ks := 0 } }

/-- Witness for C3 on a concrete seed stream with two accepted rooms. -/
theorem C3_rooms_disjoint_witness :
    1 < (make_map_rooms [newPlayer] 1 seedsW).length ∧
    ((make_map_rooms [newPlayer] 1 seedsW).getD 0 dfltR).intersects_with
      ((make_map_rooms [newPlayer] 1 seedsW).getD 1 dfltR) = false := by
  have h1 : 1 < (make_map_rooms [newPlayer] 1 seedsW).length := by decide
  have h0 : 0 < (make_map_rooms [newPlayer] 1 seedsW).length :=
    Nat.lt_trans Nat.zero_lt_one h1
  have h := C3_rooms_disjoint [newPlayer] 1 seedsW 0 1 h0 h1 (by decide)
  refine ⟨h1, ?_⟩
  rw [List.getD_eq_getElem _ _ h0, List.getD_eq_getElem _ _ h1]
  exact h

/-! ### C10 and C8: generator safety and the level-transition frame -/

theorem foldl_append_extend (f : List Object → Nat → List Object)
    (hf : ∀ acc x, ∃ t, f acc x = acc ++ t) :
    ∀ (l : List Nat) (acc : List Object), ∃ t, l.foldl f acc = acc ++ t := by
  intro l
  induction l with
  | nil => exact fun acc => ⟨[], by simp⟩
  | cons x xs ih =>
    intro acc
    obtain ⟨t1, h1⟩ := hf acc x
    obtain ⟨t2, h2⟩ := ih (f acc x)
    exact ⟨t1 ++ t2, by rw [List.foldl_cons, h2, h1, List.append_assoc]⟩

/-- One item-placement attempt only appends to the store. -/
theorem place_one_extend (room : Rect) (m : Grid) (level : Nat) (s : ItemSeed)
    (objs : List Object) : ∃ t, place_one room m level s objs = objs ++ t := by
  simp only [place_one]
  split
  · exact ⟨[], by simp⟩
  · exact ⟨_, rfl⟩

/-- `place_objects` only appends to the store. -/
theorem place_objects_extend (room : Rect) (m : Grid) (objs : List Object)
    (level : Nat) (seed : RoomSeed) :
    ∃ t, place_objects room m objs level seed = objs ++ t := by
  simp only [place_objects]
  exact foldl_append_extend _ (fun acc x => place_one_extend room m level _ acc) _ objs

/-- The loop invariant tying the head of the store to the first accepted
room: before any room is accepted the store is exactly the player; after
that, the player (head) sits at the first accepted room's center. -/
def headLinked (orig : Object) (s : GenState) : Prop :=
  (s.rooms = [] ∧ s.objects = [orig]) ∨
  (s.rooms ≠ [] ∧ ∃ rest, s.objects =
    { orig with x := ((s.rooms.headD dfltR).center).1,
                y := ((s.rooms.headD dfltR).center).2 } :: rest)

theorem make_map_step_headLinked (level : Nat) (seed : RoomSeed)
    (s : GenState) (orig : Object) (h : headLinked orig s) :
    headLinked orig (make_map_step level seed s) := by
  simp only [make_map_step]
  split
  · exact h
  · rcases h with ⟨hr, hobj⟩ | ⟨hr, rest, hobj⟩
    · rw [if_pos (List.isEmpty_iff.mpr hr)]
      right
      refine ⟨by simp, ?_⟩
      obtain ⟨t, ht⟩ := place_objects_extend _ _ s.objects level seed
      rw [ht, hobj]
      exact ⟨t, by simp [List.modifyHead, Object.set_pos]⟩
    · rw [if_neg (fun hc => hr (List.isEmpty_iff.mp hc))]
      right
      refine ⟨by simp, ?_⟩
      obtain ⟨t, ht⟩ := place_objects_extend _ _ s.objects level seed
      rw [ht, hobj]
      refine ⟨rest ++ t, ?_⟩
      rw [List.cons_append]
      rw [show (s.rooms ++ [Rect.new
          (gen_range 0 (MAP_WIDTH - gen_range ROOM_MIN_SIZE (ROOM_MAX_SIZE + 1) seed.ws) seed.xs)
          (gen_range 0 (MAP_HEIGHT - gen_range ROOM_MIN_SIZE (ROOM_MAX_SIZE + 1) seed.hs) seed.ys)
          (gen_range ROOM_MIN_SIZE (ROOM_MAX_SIZE + 1) seed.ws)
          (gen_range ROOM_MIN_SIZE (ROOM_MAX_SIZE + 1) seed.hs)]).headD dfltR
        = s.rooms.headD dfltR from by
          cases hs : s.rooms with
          | nil => exact absurd hs hr
          | cons a t2 => simp]
  
theorem make_map_loop_headLinked (level : Nat) (seeds : Seeds)
    (objects : List Object) (hne : objects ≠ []) (n : Nat) :
    headLinked (objects.headD dObj) (make_map_loop level seeds objects n) := by
  induction n with
  | zero =>
    left
    refine ⟨rfl, ?_⟩
    cases objects with
    | nil => exact absurd rfl hne
    | cons a t => simp [make_map_loop]
  | succ n ih => exact make_map_step_headLinked level (seeds n) _ _ ih

theorem make_map_step_rooms_ne_of_ne (level : Nat) (seed : RoomSeed)
    (s : GenState) (h : s.rooms ≠ []) :
    (make_map_step level seed s).rooms ≠ [] := by
  simp only [make_map_step]
  split
  · exact h
  · rw [if_neg (fun hc => h (List.isEmpty_iff.mp hc))]
    simp
  
theorem make_map_step_rooms_ne_of_empty (level : Nat) (seed : RoomSeed)
    (s : GenState) (h : s.rooms = []) :
    (make_map_step level seed s).rooms ≠ [] := by
  simp only [make_map_step, h]
  simp [List.isEmpty_nil]

theorem make_map_loop_rooms_ne (level : Nat) (seeds : Seeds)
    (objects : List Object) (n : Nat) :
    (make_map_loop level seeds objects (n + 1)).rooms ≠ [] := by
  induction n with
  | zero =>
    rw [make_map_loop]
    exact make_map_step_rooms_ne_of_empty level (seeds 0) _ rfl
  | succ n ih =>
    rw [make_map_loop]
    exact make_map_step_rooms_ne_of_ne level (seeds (n + 1)) _ ih

/-- Claim C10: the generator always accepts at least one room (the first
candidate is tested against an empty list and always fits), so the player
start position is set to the first accepted room's center and the stairs
placement at the last accepted room's center never fails. -/
theorem C10_generator_safety (objects : List Object) (level : Nat)
    (seeds : Seeds) (h : objects ≠ []) :
    make_map_rooms objects level seeds ≠ [] ∧
    ((make_map objects level seeds).2.headD dObj).pos =
      ((make_map_rooms objects level seeds).headD dfltR).center ∧
    (make_map objects level seeds).2.getLastD dObj =
      mkStairs ((make_map_rooms objects level seeds).getLastD dfltR).center.1
        ((make_map_rooms objects level seeds).getLastD dfltR).center.2 := by
  have hrne : make_map_rooms objects level seeds ≠ [] :=
    make_map_loop_rooms_ne level seeds objects 29
  have hinv := make_map_loop_headLinked level seeds objects h MAX_ROOMS
  rcases hinv with ⟨hr, _⟩ | ⟨_, rest, hobj⟩
  · exact absurd hr hrne
  · refine ⟨hrne, ?_, ?_⟩
    · simp only [make_map, make_map_state, make_map_rooms]
      rw [hobj]
      simp [Object.pos]
    · simp only [make_map, make_map_state, make_map_rooms]
      simp [dfltR]

/-- The all-zero seed stream (one accepted room, no items). -/
def seeds0 : Seeds := fun _ =>
  { ws := 0, hs := 0, xs := 0, ys := 0, coin := false, ns := 0,
    itemSeeds := fun _ => { xs := 0, ys := 0, ks := 0 } }

/-- Witness for C10 at a concrete store and seed stream. -/
theorem C10_generator_safety_witness :
    ([newPlayer] : List Object) ≠ [] ∧
    (make_map_rooms [newPlayer] 1 seeds0 ≠ [] ∧
      ((make_map [newPlayer] 1 seeds0).2.headD dObj).pos =
        ((make_map_rooms [newPlayer] 1 seeds0).headD dfltR).center ∧
      (make_map [newPlayer] 1 seeds0).2.getLastD dObj =
        mkStairs ((make_map_rooms [newPlayer] 1 seeds0).getLastD dfltR).center.1
          ((make_map_rooms [newPlayer] 1 seeds0).getLastD dfltR).center.2) :=
  ⟨by decide, C10_generator_safety [newPlayer] 1 seeds0 (by decide)⟩

/-- The room loop only depends on the store through its first element. -/
theorem make_map_loop_take (level : Nat) (seeds : Seeds)
    (objects : List Object) (n : Nat) :
    make_map_loop level seeds (objects.take 1) n =
      make_map_loop level seeds objects n := by
  induction n with
  | zero => simp [make_map_loop, List.take_take]
  | succ n ih => rw [make_map_loop, make_map_loop, ih]

/-- Claim C8: `next_level` increments the dungeon level by exactly one,
appends exactly the descent log entry, keeps the inventory, replaces the
map with the generator's output for the new level, preserves the player's
stats, and discards every non-player entity (the resulting store does not
depend on the old store beyond its first element). -/
theorem C8_next_level (g : Game) (seeds : Seeds) (h : g.objects ≠ []) :
    (next_level g seeds).dungeon_level = g.dungeon_level + 1 ∧
    (next_level g seeds).log = addMsg g.log
      "After a rare moment of peace, you descend deeper into the heart of the dungeon..."
      Color.red ∧
    (next_level g seeds).inventory = g.inventory ∧
    (next_level g seeds).map = (make_map g.objects (g.dungeon_level + 1) seeds).1 ∧
    ((next_level g seeds).objects.headD dObj).stats = (g.objects.headD dObj).stats ∧
    (next_level g seeds).objects =
      (next_level { g with objects := g.objects.take 1 } seeds).objects := by
  refine ⟨?_, ?_, ?_, ?_, ?_, ?_⟩
  · simp only [next_level]
  · simp only [next_level]
  · simp only [next_level]
  · simp only [next_level]
  · have hinv := make_map_loop_headLinked (g.dungeon_level + 1) seeds g.objects h MAX_ROOMS
    have hrne := make_map_loop_rooms_ne (g.dungeon_level + 1) seeds g.objects 29
    rcases hinv with ⟨hr, _⟩ | ⟨_, rest, hobj⟩
    · exact absurd hr hrne
    · simp only [next_level, make_map, make_map_state]
      rw [hobj]
      simp
  · simp only [next_level, make_map, make_map_state, make_map_loop_take]

/-- Witness for C8 at a concrete game. -/
theorem C8_next_level_witness :
    (gPlayerOnly.objects ≠ [] ) ∧
    ((next_level gPlayerOnly seeds0).dungeon_level = gPlayerOnly.dungeon_level + 1 ∧
      (next_level gPlayerOnly seeds0).log = addMsg gPlayerOnly.log
        "After a rare moment of peace, you descend deeper into the heart of the dungeon..."
        Color.red ∧
      (next_level gPlayerOnly seeds0).inventory = gPlayerOnly.inventory ∧
      (next_level gPlayerOnly seeds0).map =
        (make_map gPlayerOnly.objects (gPlayerOnly.dungeon_level + 1) seeds0).1 ∧
      ((next_level gPlayerOnly seeds0).objects.headD dObj).stats =
        (gPlayerOnly.objects.headD dObj).stats ∧
      (next_level gPlayerOnly seeds0).objects =
        (next_level { gPlayerOnly with
          objects := gPlayerOnly.objects.take 1 } seeds0).objects) :=
  ⟨by decide, C8_next_level gPlayerOnly seeds0 (by decide)⟩

/-! ### C4: the start tile reaches the stairs tile -/

/-- A tile position is open (not blocked). -/
abbrev openAt (m : Grid) (p : Nat × Nat) : Prop := (m p.1 p.2).blocked = false

/-- Orthogonal adjacency of grid positions. -/
def Adj (p q : Nat × Nat) : Prop :=
  (p.1 = q.1 ∧ (p.2 + 1 = q.2 ∨ q.2 + 1 = p.2)) ∨
  (p.2 = q.2 ∧ (p.1 + 1 = q.1 ∨ q.1 + 1 = p.1))

/-- Existence of a path of orthogonally adjacent open tiles. -/
inductive Reachable (m : Grid) : Nat × Nat → Nat × Nat → Prop where
  | refl (p : Nat × Nat) (h : openAt m p) : Reachable m p p
  | step (p q r : Nat × Nat) (hpq : Reachable m p q) (hadj : Adj q r)
      (hr : openAt m r) : Reachable m p r

theorem reach_trans {m : Grid} {p q r : Nat × Nat}
    (h1 : Reachable m p q) (h2 : Reachable m q r) : Reachable m p r := by
  induction h2 with
  | refl _ => exact h1
  | step b c hqb hadj hc ih => exact Reachable.step _ _ _ ih hadj hc

theorem reach_ends {m : Grid} {p q : Nat × Nat} (h : Reachable m p q) :
    openAt m p ∧ openAt m q := by
  induction h with
  | refl hp => exact ⟨hp, hp⟩
  | step q r hpq hadj hr ih => exact ⟨ih.1, hr⟩

theorem adj_symm {p q : Nat × Nat} (h : Adj p q) : Adj q p := by
  rcases h with ⟨h1, h2⟩ | ⟨h1, h2⟩
  · exact Or.inl ⟨h1.symm, h2.symm⟩
  · exact Or.inr ⟨h1.symm, h2.symm⟩

theorem reach_symm {m : Grid} {p q : Nat × Nat} (h : Reachable m p q) :
    Reachable m q p := by
  induction h with
  | refl hp => exact Reachable.refl _ hp
  | step q r hpq hadj hr ih =>
    exact reach_trans
      (Reachable.step r r q (Reachable.refl r hr) (adj_symm hadj)
        (reach_ends hpq).2) ih

/-- Paths survive any further carving (carving only opens tiles). -/
theorem reach_mono {m m2 : Grid}
    (hc : ∀ x y, (m x y).blocked = false → (m2 x y).blocked = false)
    {p q : Nat × Nat} (h : Reachable m p q) : Reachable m2 p q := by
  induction h with
  | refl hp => exact Reachable.refl _ (hc _ _ hp)
  | step q r hpq hadj hr ih => exact Reachable.step _ _ _ ih hadj (hc _ _ hr)

theorem create_room_carves (room : Rect) (m : Grid) (x y : Nat)
    (h : (m x y).blocked = false) :
    ((create_room room m) x y).blocked = false := by
  simp only [create_room]
  split
  · rfl
  · exact h

theorem create_h_tunnel_carves (x1 x2 yy : Nat) (m : Grid) (x y : Nat)
    (h : (m x y).blocked = false) :
    ((create_h_tunnel x1 x2 yy m) x y).blocked = false := by
  simp only [create_h_tunnel]
  split
  · rfl
  · exact h

theorem create_v_tunnel_carves (y1 y2 xx : Nat) (m : Grid) (x y : Nat)
    (h : (m x y).blocked = false) :
    ((create_v_tunnel y1 y2 xx m) x y).blocked = false := by
  simp only [create_v_tunnel]
  split
  · rfl
  · exact h

theorem create_h_tunnel_open (x1 x2 y : Nat) (m : Grid) (a : Nat)
    (h1 : min x1 x2 ≤ a) (h2 : a ≤ max x1 x2) :
    ((create_h_tunnel x1 x2 y m) a y).blocked = false := by
  simp only [create_h_tunnel]
  rw [if_pos ⟨h1, h2, trivial⟩]
  rfl

theorem create_v_tunnel_open (y1 y2 x : Nat) (m : Grid) (b : Nat)
    (h1 : min y1 y2 ≤ b) (h2 : b ≤ max y1 y2) :
    ((create_v_tunnel y1 y2 x m) x b).blocked = false := by
  simp only [create_v_tunnel]
  rw [if_pos ⟨h1, h2, trivial⟩]
  rfl

theorem create_room_open (room : Rect) (m : Grid) (x y : Nat)
    (h1 : room.x1 + 1 ≤ x) (h2 : x < room.x2)
    (h3 : room.y1 + 1 ≤ y) (h4 : y < room.y2) :
    ((create_room room m) x y).blocked = false := by
  simp only [create_room]
  rw [if_pos ⟨h1, h2, h3, h4⟩]
  rfl

theorem gen_range_lo (lo hi s : Nat) : lo ≤ gen_range lo hi s :=
  Nat.le_add_right lo _

/-- A room of width and height at least `ROOM_MIN_SIZE` contains its
center strictly inside its carved interior. -/
theorem center_interior (x y w h : Nat)
    (hw : ROOM_MIN_SIZE ≤ w) (hh : ROOM_MIN_SIZE ≤ h) :
    (Rect.new x y w h).x1 + 1 ≤ (Rect.new x y w h).center.1 ∧
    (Rect.new x y w h).center.1 < (Rect.new x y w h).x2 ∧
    (Rect.new x y w h).y1 + 1 ≤ (Rect.new x y w h).center.2 ∧
    (Rect.new x y w h).center.2 < (Rect.new x y w h).y2 := by
  simp only [ROOM_MIN_SIZE] at hw hh
  simp only [Rect.new, Rect.center]
  omega

theorem reach_row (m : Grid) (y a b : Nat) (hab : a ≤ b)
    (hopen : ∀ x, a ≤ x → x ≤ b → openAt m (x, y)) :
    Reachable m (a, y) (b, y) := by
  induction b, hab using Nat.le_induction with
  | base => exact Reachable.refl _ (hopen a le_rfl le_rfl)
  | succ b hab ih =>
    refine Reachable.step _ (b, y) _ (ih fun x h1 h2 => hopen x h1 (by omega)) ?_
      (hopen (b + 1) (by omega) le_rfl)
    exact Or.inr ⟨rfl, Or.inl rfl⟩

theorem reach_row_any (m : Grid) (y a b : Nat)
    (hopen : ∀ x, min a b ≤ x → x ≤ max a b → openAt m (x, y)) :
    Reachable m (a, y) (b, y) := by
  rcases Nat.le_total a b with h | h
  · exact reach_row m y a b h fun x h1 h2 => hopen x (by omega) (by omega)
  · exact reach_symm (reach_row m y b a h fun x h1 h2 => hopen x (by omega) (by omega))

theorem reach_col (m : Grid) (x a b : Nat) (hab : a ≤ b)
    (hopen : ∀ y, a ≤ y → y ≤ b → openAt m (x, y)) :
    Reachable m (x, a) (x, b) := by
  induction b, hab using Nat.le_induction with
  | base => exact Reachable.refl _ (hopen a le_rfl le_rfl)
  | succ b hab ih =>
    refine Reachable.step _ (x, b) _ (ih fun z h1 h2 => hopen z h1 (by omega)) ?_
      (hopen (b + 1) (by omega) le_rfl)
    exact Or.inl ⟨rfl, Or.inl rfl⟩

theorem reach_col_any (m : Grid) (x a b : Nat)
    (hopen : ∀ y, min a b ≤ y → y ≤ max a b → openAt m (x, y)) :
    Reachable m (x, a) (x, b) := by
  rcases Nat.le_total a b with h | h
  · exact reach_col m x a b h fun z h1 h2 => hopen z (by omega) (by omega)
  · exact reach_symm (reach_col m x b a h fun z h1 h2 => hopen z (by omega) (by omega))

theorem headD_mem (l : List Rect) (d : Rect) (h : l ≠ []) : l.headD d ∈ l := by
  cases l with
  | nil => exact absurd rfl h
  | cons a t => simp

theorem getLastD_single (a d : Rect) : ([a] : List Rect).getLastD d = a := by
  simp

theorem getLastD_irrel (l : List Rect) (d1 d2 : Rect) (h : l ≠ []) :
    l.getLastD d1 = l.getLastD d2 := by
  cases l with
  | nil => exact absurd rfl h
  | cons a t => rfl

theorem tunnel_path_true (m1 : Grid) (px py cx cy : Nat) :
    Reachable (create_v_tunnel py cy cx (create_h_tunnel px cx py m1))
      (px, py) (cx, cy) := by
  apply reach_trans (q := (cx, py))
  · apply reach_row_any
    intro a h1 h2
    exact create_v_tunnel_carves _ _ _ _ _ _ (create_h_tunnel_open px cx py m1 a h1 h2)
  · apply reach_col_any
    intro b h1 h2
    exact create_v_tunnel_open py cy cx _ b h1 h2

theorem tunnel_path_false (m1 : Grid) (px py cx cy : Nat) :
    Reachable (create_h_tunnel px cx cy (create_v_tunnel py cy px m1))
      (px, py) (cx, cy) := by
  apply reach_trans (q := (px, cy))
  · apply reach_col_any
    intro b h1 h2
    exact create_h_tunnel_carves _ _ _ _ _ _ (create_v_tunnel_open py cy px m1 b h1 h2)
  · apply reach_row_any
    intro a h1 h2
    exact create_h_tunnel_open px cx cy _ a h1 h2

theorem tunnel_carve_true (m1 : Grid) (px py cx cy x y : Nat)
    (h : (m1 x y).blocked = false) :
    ((create_v_tunnel py cy cx (create_h_tunnel px cx py m1)) x y).blocked = false :=
  create_v_tunnel_carves _ _ _ _ _ _ (create_h_tunnel_carves _ _ _ _ _ _ h)

theorem tunnel_carve_false (m1 : Grid) (px py cx cy x y : Nat)
    (h : (m1 x y).blocked = false) :
    ((create_h_tunnel px cx cy (create_v_tunnel py cy px m1)) x y).blocked = false :=
  create_h_tunnel_carves _ _ _ _ _ _ (create_v_tunnel_carves _ _ _ _ _ _ h)

/-- The connectivity invariant of the room loop: every accepted room's
center reaches the center of the most recently accepted room. -/
def ReachLinked (s : GenState) : Prop :=
  ∀ r ∈ s.rooms, Reachable s.map r.center ((s.rooms.getLastD dfltR).center)

theorem make_map_step_reachLinked (level : Nat) (seed : RoomSeed)
    (s : GenState) (h : ReachLinked s) :
    ReachLinked (make_map_step level seed s) := by
  have hw := gen_range_lo ROOM_MIN_SIZE (ROOM_MAX_SIZE + 1) seed.ws
  have hh := gen_range_lo ROOM_MIN_SIZE (ROOM_MAX_SIZE + 1) seed.hs
  have hcent := center_interior
    (gen_range 0 (MAP_WIDTH - gen_range ROOM_MIN_SIZE (ROOM_MAX_SIZE + 1) seed.ws) seed.xs)
    (gen_range 0 (MAP_HEIGHT - gen_range ROOM_MIN_SIZE (ROOM_MAX_SIZE + 1) seed.hs) seed.ys)
    (gen_range ROOM_MIN_SIZE (ROOM_MAX_SIZE + 1) seed.ws)
    (gen_range ROOM_MIN_SIZE (ROOM_MAX_SIZE + 1) seed.hs) hw hh
  simp only [ReachLinked, make_map_step]
  split
  · exact h
  · split
    next hEmpty =>
      intro r hr
      simp only [List.mem_singleton] at hr
      subst hr
      rw [getLastD_single]
      exact Reachable.refl _
        (create_room_open _ s.map _ _ hcent.1 hcent.2.1 hcent.2.2.1 hcent.2.2.2)
    next hEmpty =>
      have hrooms : s.rooms ≠ [] := by
        intro hc
        rw [hc] at hEmpty
        exact hEmpty rfl
      rw [getLastD_irrel s.rooms _ dfltR hrooms]
      intro r hr
      simp only [List.getLastD_concat]
      rcases List.mem_append.mp hr with hmem | hmem
      · have hold := h r hmem
        split
        · exact reach_trans
            (reach_mono
              (fun x y hxy => tunnel_carve_true _ _ _ _ _ x y
                (create_room_carves _ s.map x y hxy)) hold)
            (tunnel_path_true _ _ _ _ _)
        · exact reach_trans
            (reach_mono
              (fun x y hxy => tunnel_carve_false _ _ _ _ _ x y
                (create_room_carves _ s.map x y hxy)) hold)
            (tunnel_path_false _ _ _ _ _)
      · simp only [List.mem_singleton] at hmem
        subst hmem
        split
        · exact Reachable.refl _
            (tunnel_carve_true _ _ _ _ _ _ _
              (create_room_open _ s.map _ _ hcent.1 hcent.2.1 hcent.2.2.1 hcent.2.2.2))
        · exact Reachable.refl _
            (tunnel_carve_false _ _ _ _ _ _ _
              (create_room_open _ s.map _ _ hcent.1 hcent.2.1 hcent.2.2.1 hcent.2.2.2))

theorem make_map_loop_reachLinked (level : Nat) (seeds : Seeds)
    (objects : List Object) (n : Nat) :
    ReachLinked (make_map_loop level seeds objects n) := by
  induction n with
  | zero =>
    intro r hr
    simp [make_map_loop] at hr
  | succ n ih => exact make_map_step_reachLinked level (seeds n) _ ih

/-- Claim C4: in every generated map there is a path of orthogonally
adjacent open tiles from the player's starting tile (the center of the
first accepted room) to the stairs tile (the center of the last accepted
room). -/
theorem C4_start_reaches_stairs (objects : List Object) (level : Nat)
    (seeds : Seeds) :
    Reachable (make_map objects level seeds).1
      (((make_map_rooms objects level seeds).headD dfltR).center)
      (((make_map_rooms objects level seeds).getLastD dfltR).center) := by
  have hinv := make_map_loop_reachLinked level seeds objects MAX_ROOMS
  have hne : (make_map_loop level seeds objects MAX_ROOMS).rooms ≠ [] :=
    make_map_loop_rooms_ne level seeds objects 29
  have hmem := headD_mem _ dfltR hne
  simp only [make_map, make_map_state, make_map_rooms]
  exact hinv _ hmem

/-! ### C1: at most one equipped item per slot -/

/-- An object that is not an equipped piece of equipment. -/
def unequippedObj (o : Object) : Prop :=
  ∀ e, o.equipment = some e → e.equipped = false

/-- Entity-store invariant: nothing lying on the map is equipped. -/
def UnequippedStore (objects : List Object) : Prop :=
  ∀ o ∈ objects, unequippedObj o

/-- Inventory invariant: every equipment entry is also an item (so the
`equip`/`unequip` methods actually toggle it). -/
def InvItems (inv : List Object) : Prop :=
  ∀ o ∈ inv, o.equipment.isSome → o.item.isSome

/-- The claimed invariant: at most one equipped item per slot. -/
def AtMostOneEquipped (inv : List Object) : Prop :=
  ∀ s : Slot, inv.countP (equippedInSlot s) ≤ 1

/-- The combined reachable-state invariant used to prove C1. -/
def GoodGame (g : Game) : Prop :=
  UnequippedStore g.objects ∧ InvItems g.inventory ∧ AtMostOneEquipped g.inventory

theorem equippedInSlot_false_of_unequipped (s : Slot) (o : Object)
    (h : unequippedObj o) : equippedInSlot s o = false := by
  unfold equippedInSlot
  cases he : o.equipment with
  | none => rfl
  | some e => simp [h e he]

theorem equippedInSlot_true_elim (s : Slot) (o : Object)
    (h : equippedInSlot s o = true) :
    ∃ e, o.equipment = some e ∧ e.equipped = true ∧ e.slot = s := by
  unfold equippedInSlot at h
  cases he : o.equipment with
  | none => rw [he] at h; simp at h
  | some e =>
    rw [he] at h
    simp only [Bool.and_eq_true, decide_eq_true_eq] at h
    exact ⟨e, rfl, h.1, h.2⟩

theorem getD_mem (l : List Object) (i : Nat) (d : Object)
    (h : i < l.length) : l.getD i d ∈ l := by
  rw [List.getD_eq_getElem l d h]
  exact List.getElem_mem h

theorem getLastD_mem (l : List Object) (d : Object) (h : l ≠ []) :
    l.getLastD d ∈ l := by
  induction l with
  | nil => exact absurd rfl h
  | cons a t ih =>
    rw [List.getLastD_cons]
    cases t with
    | nil => simp [List.getLastD]
    | cons b u => exact List.mem_cons_of_mem a (ih (by simp))

theorem swapRemove_mem (l : List Object) (i : Nat) (o : Object)
    (h : o ∈ (swapRemove l i).2) : o ∈ l := by
  simp only [swapRemove] at h
  have h2 : o ∈ l.set i (l.getLastD dObj) := (List.dropLast_sublist _).subset h
  rcases List.mem_or_eq_of_mem_set h2 with hm | rfl
  · exact hm
  · cases hl : l with
    | nil => rw [hl] at h2; simp at h2
    | cons a t => rw [← hl]; exact getLastD_mem l dObj (by rw [hl]; simp)

theorem modifyHead_preserve (P : Object → Prop) (f : Object → Object)
    (l : List Object) (hl : ∀ o ∈ l, P o) (hf : ∀ o, P o → P (f o)) :
    ∀ o ∈ l.modifyHead f, P o := by
  cases l with
  | nil => simp
  | cons a t =>
    intro o ho
    rcases List.mem_cons.mp ho with rfl | ho
    · exact hf a (hl a (by simp))
    · exact hl o (List.mem_cons_of_mem a ho)

theorem foldl_preserve_all (P : Object → Prop)
    (f : List Object → Nat → List Object)
    (hf : ∀ acc x, (∀ o ∈ acc, P o) → ∀ o ∈ f acc x, P o) :
    ∀ (l : List Nat) (acc : List Object), (∀ o ∈ acc, P o) →
      ∀ o ∈ l.foldl f acc, P o := by
  intro l
  induction l with
  | nil => exact fun acc h => h
  | cons x xs ih => exact fun acc h => ih (f acc x) (hf acc x h)

/-- Every object created by the item-placement match is unequipped. -/
theorem mkItemObject_unequipped (kind : Item) (x y : Nat) :
    unequippedObj { mkItemObject kind x y with always_visible := true } := by
  intro e he
  cases kind <;> simp [mkItemObject, Object.new] at he <;> simp [← he]

theorem place_one_store (room : Rect) (m : Grid) (level : Nat) (s : ItemSeed)
    (objs : List Object) (h : ∀ o ∈ objs, unequippedObj o) :
    ∀ o ∈ place_one room m level s objs, unequippedObj o := by
  simp only [place_one]
  split
  · exact h
  · intro o ho
    rcases List.mem_append.mp ho with hm | hm
    · exact h o hm
    · simp only [List.mem_singleton] at hm
      subst hm
      exact mkItemObject_unequipped _ _ _

theorem place_objects_store (room : Rect) (m : Grid) (objs : List Object)
    (level : Nat) (seed : RoomSeed) (h : ∀ o ∈ objs, unequippedObj o) :
    ∀ o ∈ place_objects room m objs level seed, unequippedObj o := by
  simp only [place_objects]
  exact foldl_preserve_all _ _
    (fun acc x hacc => place_one_store room m level _ acc hacc) _ objs h

theorem make_map_step_store (level : Nat) (seed : RoomSeed) (s : GenState)
    (h : ∀ o ∈ s.objects, unequippedObj o) :
    ∀ o ∈ (make_map_step level seed s).objects, unequippedObj o := by
  simp only [make_map_step]
  split
  · exact h
  · split
    · exact modifyHead_preserve _ _ _
        (place_objects_store _ _ s.objects level seed h)
        (fun o ho e he => ho e he)
    · exact place_objects_store _ _ s.objects level seed h

theorem make_map_loop_store (level : Nat) (seeds : Seeds)
    (objects : List Object) (h : ∀ o ∈ objects, unequippedObj o) (n : Nat) :
    ∀ o ∈ (make_map_loop level seeds objects n).objects, unequippedObj o := by
  induction n with
  | zero =>
    intro o ho
    exact h o ((List.take_sublist 1 objects).subset ho)
  | succ n ih => exact make_map_step_store level (seeds n) _ ih

theorem make_map_store (objects : List Object) (level : Nat) (seeds : Seeds)
    (h : ∀ o ∈ objects, unequippedObj o) :
    ∀ o ∈ (make_map objects level seeds).2, unequippedObj o := by
  simp only [make_map]
  intro o ho
  rcases List.mem_append.mp ho with hm | hm
  · exact make_map_loop_store level seeds objects h MAX_ROOMS o hm
  · simp only [List.mem_singleton] at hm
    subst hm
    intro e he
    simp [mkStairs, Object.new] at he

theorem countP_singleton_le (p : Object → Bool) (o : Object) :
    ([o] : List Object).countP p ≤ 1 := by
  by_cases hp : p o <;> simp [List.countP_cons, hp]

/-- A fresh game satisfies the combined invariant: nothing on the map is
equipped, and the inventory holds exactly the equipped dagger. -/
theorem new_game_good (seeds : Seeds) : GoodGame (new_game seeds) := by
  have hinv : (new_game seeds).inventory = [starting_dagger] := rfl
  have hobj : (new_game seeds).objects = (make_map [newPlayer] 1 seeds).2 := rfl
  refine ⟨?_, ?_, ?_⟩
  · intro o ho
    rw [hobj] at ho
    refine make_map_store [newPlayer] 1 seeds ?_ o ho
    intro o2 ho2
    simp only [List.mem_singleton] at ho2
    subst ho2
    intro e he
    simp [newPlayer, Object.new] at he
  · intro o ho
    rw [hinv] at ho
    simp only [List.mem_singleton] at ho
    subst ho
    intro _
    rfl
  · intro s
    rw [hinv]
    exact countP_singleton_le _ _

/-- The inventory-full message game of `pick_item_up`, case: refused. -/
theorem pick_item_up_good (id : Nat) (g : Game)
    (hid : id < g.objects.length)
    (hitem : (g.objects.getD id dObj).item.isSome)
    (hg : GoodGame g) : GoodGame (pick_item_up id g) := by
  obtain ⟨hstore, hitems, hone⟩ := hg
  have hmemid : g.objects.getD id dObj ∈ g.objects := getD_mem _ _ _ hid
  have huneq : unequippedObj (g.objects.getD id dObj) := hstore _ hmemid
  have hstore2 : UnequippedStore ((g.objects.set id (g.objects.getLastD dObj)).dropLast) := by
    intro o ho
    exact hstore o (swapRemove_mem g.objects id o ho)
  have hitems2 : InvItems (g.inventory ++ [g.objects.getD id dObj]) := by
    intro o ho
    rcases List.mem_append.mp ho with hm | hm
    · exact hitems o hm
    · simp only [List.mem_singleton] at hm
      subst hm
      exact fun _ => hitem
  have hcount2 : ∀ s : Slot,
      (g.inventory ++ [g.objects.getD id dObj]).countP (equippedInSlot s) =
        g.inventory.countP (equippedInSlot s) := by
    intro s
    rw [List.countP_append]
    simp [List.countP_cons, equippedInSlot_false_of_unequipped s _ huneq,
      -List.getD_eq_getElem?_getD]
  by_cases hfull : 26 ≤ g.inventory.length
  · rw [pick_item_up, if_pos hfull]
    exact ⟨hstore, hitems, hone⟩
  · cases he : (g.objects.getD id dObj).equipment with
    | none =>
      have hp : pick_item_up id g = { g with
          objects := (g.objects.set id (g.objects.getLastD dObj)).dropLast,
          inventory := g.inventory ++ [g.objects.getD id dObj],
          log := addMsg g.log
            ("You picked up a " ++ (g.objects.getD id dObj).name ++ "!")
            Color.green } := by
        simp only [pick_item_up, if_neg hfull, swapRemove, he, Option.map_none']
      rw [hp]
      refine ⟨hstore2, hitems2, ?_⟩
      intro s
      rw [show ({ g with
          objects := (g.objects.set id (g.objects.getLastD dObj)).dropLast,
          inventory := g.inventory ++ [g.objects.getD id dObj],
          log := addMsg g.log
            ("You picked up a " ++ (g.objects.getD id dObj).name ++ "!")
            Color.green } : Game).inventory
        = g.inventory ++ [g.objects.getD id dObj] from rfl, hcount2 s]
      exact hone s
    | some e =>
      cases hc : get_equipped_in_slot e.slot
          (g.inventory ++ [g.objects.getD id dObj]) with
      | some j =>
        have hp : pick_item_up id g = { g with
            objects := (g.objects.set id (g.objects.getLastD dObj)).dropLast,
            inventory := g.inventory ++ [g.objects.getD id dObj],
            log := addMsg g.log
              ("You picked up a " ++ (g.objects.getD id dObj).name ++ "!")
              Color.green } := by
          simp only [pick_item_up, if_neg hfull, swapRemove, he, Option.map_some', hc]
        rw [hp]
        refine ⟨hstore2, hitems2, ?_⟩
        intro s
        rw [show ({ g with
            objects := (g.objects.set id (g.objects.getLastD dObj)).dropLast,
            inventory := g.inventory ++ [g.objects.getD id dObj],
            log := addMsg g.log
              ("You picked up a " ++ (g.objects.getD id dObj).name ++ "!")
              Color.green } : Game).inventory
          = g.inventory ++ [g.objects.getD id dObj] from rfl, hcount2 s]
        exact hone s
      | none =>
        have hlen : g.inventory.length <
            (g.inventory ++ [g.objects.getD id dObj]).length := by simp
        have hgd : (g.inventory ++ [g.objects.getD id dObj]).getD
            g.inventory.length dObj = g.objects.getD id dObj := by simp
        have hiso : (g.objects.getD id dObj).item.isSome := hitem
        have hequipres :
            (((g.inventory ++ [g.objects.getD id dObj]).getD g.inventory.length dObj).equip
              (addMsg g.log
                ("You picked up a " ++ (g.objects.getD id dObj).name ++ "!")
                Color.green)).1
            = { g.objects.getD id dObj with
                equipment := some { e with equipped := true } } := by
          rw [hgd]
          exact equip_result _ _ _ hiso he
        have hall : ∀ o ∈ g.inventory ++ [g.objects.getD id dObj],
            equippedInSlot e.slot o = false := by
          rw [get_equipped_in_slot] at hc
          exact firstIdx_none_spec _ _ hc
        have hp : pick_item_up id g = { g with
            objects := (g.objects.set id (g.objects.getLastD dObj)).dropLast,
            inventory := (g.inventory ++ [g.objects.getD id dObj]).set
              g.inventory.length
              (((g.inventory ++ [g.objects.getD id dObj]).getD g.inventory.length dObj).equip
                (addMsg g.log
                  ("You picked up a " ++ (g.objects.getD id dObj).name ++ "!")
                  Color.green)).1,
            log := (((g.inventory ++ [g.objects.getD id dObj]).getD g.inventory.length dObj).equip
                (addMsg g.log
                  ("You picked up a " ++ (g.objects.getD id dObj).name ++ "!")
                  Color.green)).2 } := by
          simp only [pick_item_up, if_neg hfull, swapRemove, he, Option.map_some', hc]
        rw [hp]
        refine ⟨hstore2, ?_, ?_⟩
        · intro o ho
          rcases List.mem_or_eq_of_mem_set ho with hm | hm
          · exact hitems2 o hm
          · subst hm
            rw [hequipres]
            intro _
            exact hitem
        · intro s
          have hbal := countP_set_balance (equippedInSlot s)
            (g.inventory ++ [g.objects.getD id dObj]) g.inventory.length
            ((((g.inventory ++ [g.objects.getD id dObj]).getD g.inventory.length dObj).equip
              (addMsg g.log
                ("You picked up a " ++ (g.objects.getD id dObj).name ++ "!")
                Color.green)).1) dObj hlen
          have hpold : equippedInSlot s
              ((g.inventory ++ [g.objects.getD id dObj]).getD g.inventory.length dObj) = false := by
            rw [hgd]
            exact equippedInSlot_false_of_unequipped s _ huneq
          rw [hpold] at hbal
          by_cases hs : s = e.slot
          · have hzero : (g.inventory ++ [g.objects.getD id dObj]).countP
                (equippedInSlot s) = 0 := by
              rw [List.countP_eq_zero]
              intro a ha
              rw [hs]
              simp [hall a ha]
            have hpnew : equippedInSlot s
                ((((g.inventory ++ [g.objects.getD id dObj]).getD g.inventory.length dObj).equip
              (addMsg g.log
                ("You picked up a " ++ (g.objects.getD id dObj).name ++ "!")
                Color.green)).1) = true := by
              rw [hequipres, hs]
              simp [equippedInSlot]
            rw [hzero, hpnew] at hbal
            simp only [cond] at hbal
            have hfin : ((g.inventory ++ [g.objects.getD id dObj]).set g.inventory.length
                ((((g.inventory ++ [g.objects.getD id dObj]).getD g.inventory.length dObj).equip
              (addMsg g.log
                ("You picked up a " ++ (g.objects.getD id dObj).name ++ "!")
                Color.green)).1)).countP (equippedInSlot s) ≤ 1 := by
              omega
            exact hfin
          · have hpnew : equippedInSlot s
                ((((g.inventory ++ [g.objects.getD id dObj]).getD g.inventory.length dObj).equip
              (addMsg g.log
                ("You picked up a " ++ (g.objects.getD id dObj).name ++ "!")
                Color.green)).1) = false := by
              rw [hequipres]
              simp [equippedInSlot]
              intro hc2
              exact absurd hc2.symm hs
            rw [hpnew] at hbal
            simp only [cond] at hbal
            have h1 := hcount2 s
            have h2 := hone s
            have hfin : ((g.inventory ++ [g.objects.getD id dObj]).set g.inventory.length
                ((((g.inventory ++ [g.objects.getD id dObj]).getD g.inventory.length dObj).equip
              (addMsg g.log
                ("You picked up a " ++ (g.objects.getD id dObj).name ++ "!")
                Color.green)).1)).countP (equippedInSlot s) ≤ 1 := by
              omega
            exact hfin

theorem toggle_fst_kept (i : Nat) (g : Game) (e : Equipment)
    (he : (g.inventory.getD i dObj).equipment = some e) :
    (toggle_equipment i g).1 = UseResult.UsedAndKept := by
  simp only [toggle_equipment, he]
  split
  · rfl
  · rfl

/-- `toggle_equipment` preserves the combined invariant. -/
theorem toggle_equipment_good (i : Nat) (g : Game)
    (hi : i < g.inventory.length) (hg : GoodGame g) :
    GoodGame (toggle_equipment i g).2 := by
  obtain ⟨hstore, hitems, hone⟩ := hg
  cases he : (g.inventory.getD i dObj).equipment with
  | none =>
    have ht : toggle_equipment i g = (UseResult.Cancelled, g) := by
      simp [toggle_equipment, he, -List.getD_eq_getElem?_getD]
    rw [ht]
    exact ⟨hstore, hitems, hone⟩
  | some e =>
    have hmem : g.inventory.getD i dObj ∈ g.inventory := getD_mem _ _ _ hi
    have hiso : (g.inventory.getD i dObj).item.isSome :=
      hitems _ hmem (by rw [he]; rfl)
    cases heq : e.equipped with
    | true =>
      have ht : toggle_equipment i g =
          (UseResult.UsedAndKept,
            { g with
              inventory := g.inventory.set i
                ((g.inventory.getD i dObj).unequip g.log).1,
              log := ((g.inventory.getD i dObj).unequip g.log).2 }) := by
        simp [toggle_equipment, he, heq, -List.getD_eq_getElem?_getD]
      have hres := unequip_result (g.inventory.getD i dObj) g.log e hiso he
      rw [ht]
      refine ⟨hstore, ?_, ?_⟩
      · intro o ho
        rcases List.mem_or_eq_of_mem_set ho with hm | hm
        · exact hitems o hm
        · subst hm
          rw [hres]
          intro _
          exact hiso
      · intro s
        have hbal := countP_set_balance (equippedInSlot s) g.inventory i
          ((g.inventory.getD i dObj).unequip g.log).1 dObj hi
        have hpnew : equippedInSlot s
            ((g.inventory.getD i dObj).unequip g.log).1 = false := by
          rw [hres]
          simp [equippedInSlot]
        rw [hpnew] at hbal
        have h2 := hone s
        have hfin : (g.inventory.set i
            ((g.inventory.getD i dObj).unequip g.log).1).countP
            (equippedInSlot s) ≤ 1 := by
          cases hpo : equippedInSlot s (g.inventory.getD i dObj) <;>
            rw [hpo] at hbal <;> simp only [cond] at hbal <;> omega
        exact hfin
    | false =>
      cases hc : get_equipped_in_slot e.slot g.inventory with
      | none =>
        have hall : ∀ o ∈ g.inventory, equippedInSlot e.slot o = false := by
          rw [get_equipped_in_slot] at hc
          exact firstIdx_none_spec _ _ hc
        have ht : toggle_equipment i g =
            (UseResult.UsedAndKept,
              { g with
                inventory := g.inventory.set i
                  ((g.inventory.getD i dObj).equip g.log).1,
                log := ((g.inventory.getD i dObj).equip g.log).2 }) := by
          simp [toggle_equipment, he, heq, hc, -List.getD_eq_getElem?_getD]
        have hres := equip_result (g.inventory.getD i dObj) g.log e hiso he
        rw [ht]
        refine ⟨hstore, ?_, ?_⟩
        · intro o ho
          rcases List.mem_or_eq_of_mem_set ho with hm | hm
          · exact hitems o hm
          · subst hm
            rw [hres]
            intro _
            exact hiso
        · intro s
          have hbal := countP_set_balance (equippedInSlot s) g.inventory i
            ((g.inventory.getD i dObj).equip g.log).1 dObj hi
          have hpold : equippedInSlot s (g.inventory.getD i dObj) = false := by
            simp [equippedInSlot, he, heq, -List.getD_eq_getElem?_getD]
          rw [hpold] at hbal
          by_cases hs : s = e.slot
          · have hzero : g.inventory.countP (equippedInSlot s) = 0 := by
              rw [List.countP_eq_zero]
              intro a ha
              rw [hs]
              simp [hall a ha]
            have hpnew : equippedInSlot s
                ((g.inventory.getD i dObj).equip g.log).1 = true := by
              rw [hres, hs]
              simp [equippedInSlot]
            rw [hzero, hpnew] at hbal
            simp only [cond] at hbal
            have hfin : (g.inventory.set i
                ((g.inventory.getD i dObj).equip g.log).1).countP
                (equippedInSlot s) ≤ 1 := by omega
            exact hfin
          · have hpnew : equippedInSlot s
                ((g.inventory.getD i dObj).equip g.log).1 = false := by
              rw [hres]
              simp [equippedInSlot]
              intro hc2
              exact absurd hc2.symm hs
            rw [hpnew] at hbal
            simp only [cond] at hbal
            have h2 := hone s
            have hfin : (g.inventory.set i
                ((g.inventory.getD i dObj).equip g.log).1).countP
                (equippedInSlot s) ≤ 1 := by omega
            exact hfin
      | some j =>
        obtain ⟨hjlen, hjp⟩ := firstIdx_some_spec (equippedInSlot e.slot)
          g.inventory j dObj (by rw [get_equipped_in_slot] at hc; exact hc)
        have hij : i ≠ j := by
          intro hcon
          rw [← hcon] at hjp
          simp [equippedInSlot, he, heq, -List.getD_eq_getElem?_getD] at hjp
        obtain ⟨ej, hej, hejq, hejs⟩ := equippedInSlot_true_elim _ _ hjp
        have hjso : (g.inventory.getD j dObj).item.isSome :=
          hitems _ (getD_mem _ _ _ hjlen) (by rw [hej]; rfl)
        have hresj := unequip_result (g.inventory.getD j dObj) g.log ej hjso hej
        have hgdi : (g.inventory.set j
            ((g.inventory.getD j dObj).unequip g.log).1).getD i dObj
            = g.inventory.getD i dObj := getD_set_ne _ _ _ _ _ hij
        have hlen1 : i < (g.inventory.set j
            ((g.inventory.getD j dObj).unequip g.log).1).length := by
          simpa using hi
        have hresi := equip_result (g.inventory.getD i dObj)
          ((g.inventory.getD j dObj).unequip g.log).2 e hiso he
        have ht : toggle_equipment i g =
            (UseResult.UsedAndKept,
              { g with
                inventory := (g.inventory.set j
                    ((g.inventory.getD j dObj).unequip g.log).1).set i
                  (((g.inventory.set j
                      ((g.inventory.getD j dObj).unequip g.log).1).getD i dObj).equip
                    ((g.inventory.getD j dObj).unequip g.log).2).1,
                log := (((g.inventory.set j
                      ((g.inventory.getD j dObj).unequip g.log).1).getD i dObj).equip
                    ((g.inventory.getD j dObj).unequip g.log).2).2 }) := by
          simp [toggle_equipment, he, heq, hc, -List.getD_eq_getElem?_getD]
        have hresi2 : (((g.inventory.set j
            ((g.inventory.getD j dObj).unequip g.log).1).getD i dObj).equip
              ((g.inventory.getD j dObj).unequip g.log).2).1
            = { g.inventory.getD i dObj with
                equipment := some { e with equipped := true } } := by
          rw [hgdi]
          exact hresi
        rw [ht]
        refine ⟨hstore, ?_, ?_⟩
        · intro o ho
          rcases List.mem_or_eq_of_mem_set ho with hm | hm
          · rcases List.mem_or_eq_of_mem_set hm with hm2 | hm2
            · exact hitems o hm2
            · subst hm2
              rw [hresj]
              intro _
              exact hjso
          · subst hm
            rw [hresi2]
            intro _
            exact hiso
        · intro s
          have hbal1 := countP_set_balance (equippedInSlot s) g.inventory j
            ((g.inventory.getD j dObj).unequip g.log).1 dObj hjlen
          have hbal2 := countP_set_balance (equippedInSlot s)
            (g.inventory.set j ((g.inventory.getD j dObj).unequip g.log).1) i
            (((g.inventory.set j
                ((g.inventory.getD j dObj).unequip g.log).1).getD i dObj).equip
              ((g.inventory.getD j dObj).unequip g.log).2).1 dObj hlen1
          have hpj' : equippedInSlot s
              ((g.inventory.getD j dObj).unequip g.log).1 = false := by
            rw [hresj]
            simp [equippedInSlot]
          have hpi : equippedInSlot s ((g.inventory.set j
              ((g.inventory.getD j dObj).unequip g.log).1).getD i dObj) = false := by
            rw [hgdi]
            simp [equippedInSlot, he, heq, -List.getD_eq_getElem?_getD]
          rw [hpj'] at hbal1
          rw [hpi] at hbal2
          by_cases hs : s = e.slot
          · have hpj : equippedInSlot s (g.inventory.getD j dObj) = true := by
              rw [hs]
              exact hjp
            have hpi' : equippedInSlot s
                (((g.inventory.set j
                    ((g.inventory.getD j dObj).unequip g.log).1).getD i dObj).equip
                  ((g.inventory.getD j dObj).unequip g.log).2).1 = true := by
              rw [hresi2, hs]
              simp [equippedInSlot]
            rw [hpj] at hbal1
            rw [hpi'] at hbal2
            simp only [cond] at hbal1 hbal2
            have h2 := hone s
            have hfin : ((g.inventory.set j
                ((g.inventory.getD j dObj).unequip g.log).1).set i
                  (((g.inventory.set j
                      ((g.inventory.getD j dObj).unequip g.log).1).getD i dObj).equip
                    ((g.inventory.getD j dObj).unequip g.log).2).1).countP
                (equippedInSlot s) ≤ 1 := by omega
            exact hfin
          · have hpj : equippedInSlot s (g.inventory.getD j dObj) = false := by
              simp [equippedInSlot, hej, hejq, hejs, -List.getD_eq_getElem?_getD]
              intro hc2
              exact absurd hc2.symm hs
            have hpi' : equippedInSlot s
                (((g.inventory.set j
                    ((g.inventory.getD j dObj).unequip g.log).1).getD i dObj).equip
                  ((g.inventory.getD j dObj).unequip g.log).2).1 = false := by
              rw [hresi2]
              simp [equippedInSlot]
              intro hc2
              exact absurd hc2.symm hs
            rw [hpj] at hbal1
            rw [hpi'] at hbal2
            simp only [cond] at hbal1 hbal2
            have h2 := hone s
            have hfin : ((g.inventory.set j
                ((g.inventory.getD j dObj).unequip g.log).1).set i
                  (((g.inventory.set j
                      ((g.inventory.getD j dObj).unequip g.log).1).getD i dObj).equip
                    ((g.inventory.getD j dObj).unequip g.log).2).1).countP
                (equippedInSlot s) ≤ 1 := by omega
            exact hfin

/-- `playerStatMod` (the only mutation the cast routines perform)
preserves the combined invariant. -/
theorem playerStatMod_good (f : Stats → Stats) (g : Game) (hg : GoodGame g) :
    GoodGame (playerStatMod f g) := by
  obtain ⟨hstore, hitems, hone⟩ := hg
  refine ⟨?_, hitems, hone⟩
  intro o ho
  refine modifyHead_preserve _ _ _ hstore ?_ o ho
  intro o2 ho2 e he
  exact ho2 e he

/-- Shift-removing an inventory entry preserves the combined invariant. -/
theorem eraseIdx_inventory_good (g : Game) (i : Nat) (hg : GoodGame g) :
    InvItems (g.inventory.eraseIdx i) ∧
    AtMostOneEquipped (g.inventory.eraseIdx i) := by
  obtain ⟨hstore, hitems, hone⟩ := hg
  constructor
  · intro o ho
    exact hitems o ((List.eraseIdx_sublist g.inventory i).subset ho)
  · intro s
    exact le_trans
      ((List.eraseIdx_sublist g.inventory i).countP_le (equippedInSlot s)) (hone s)

/-- `use_item` preserves the combined invariant. -/
theorem use_item_good (i : Nat) (g : Game) (hi : i < g.inventory.length)
    (hg : GoodGame g) : GoodGame (use_item i g) := by
  obtain ⟨hstore, hitems, hone⟩ := hg
  cases hk : (g.inventory.getD i dObj).item with
  | none =>
    have hp : use_item i g = { g with
        log := addMsg g.log ("The " ++ (g.inventory.getD i dObj).name ++ " cannot be used.") Color.white } := by
      simp only [use_item, hk]
    rw [hp]
    exact ⟨hstore, hitems, hone⟩
  | some k =>
    have hcast : ∀ f : Stats → Stats,
        GoodGame { playerStatMod f g with
          inventory := (playerStatMod f g).inventory.eraseIdx i } := by
      intro f
      have hg2 := playerStatMod_good f g ⟨hstore, hitems, hone⟩
      obtain ⟨he1, he2⟩ := eraseIdx_inventory_good (playerStatMod f g) i hg2
      exact ⟨hg2.1, he1, he2⟩
    cases k with
    | Heal =>
      have hp : use_item i g = { playerStatMod
          (fun s => { s with bladder := s.bladder + 20 }) g with
          inventory := (playerStatMod
            (fun s => { s with bladder := s.bladder + 20 }) g).inventory.eraseIdx i } := by
        simp only [use_item, hk, dispatchUse, cast_heal]
      rw [hp]
      exact hcast _
    | Lightning =>
      have hp : use_item i g = { playerStatMod
          (fun s => { s with energy := s.energy + 20 }) g with
          inventory := (playerStatMod
            (fun s => { s with energy := s.energy + 20 }) g).inventory.eraseIdx i } := by
        simp only [use_item, hk, dispatchUse, cast_lightning]
      rw [hp]
      exact hcast _
    | Confuse =>
      have hp : use_item i g = { playerStatMod
          (fun s => { s with social := s.social + 20 }) g with
          inventory := (playerStatMod
            (fun s => { s with social := s.social + 20 }) g).inventory.eraseIdx i } := by
        simp only [use_item, hk, dispatchUse, cast_confuse]
      rw [hp]
      exact hcast _
    | Fireball =>
      have hp : use_item i g = { playerStatMod
          (fun s => { s with comfort := s.comfort + 20 }) g with
          inventory := (playerStatMod
            (fun s => { s with comfort := s.comfort + 20 }) g).inventory.eraseIdx i } := by
        simp only [use_item, hk, dispatchUse, cast_fireball]
      rw [hp]
      exact hcast _
    | Sword =>
      cases he : (g.inventory.getD i dObj).equipment with
      | none =>
        have ht : toggle_equipment i g = (UseResult.Cancelled, g) := by
          simp [toggle_equipment, he, -List.getD_eq_getElem?_getD]
        have hp : use_item i g =
            { g with log := addMsg g.log "Cancelled" Color.white } := by
          simp only [use_item, hk, dispatchUse, ht]
        rw [hp]
        exact ⟨hstore, hitems, hone⟩
      | some e =>
        have hp : use_item i g = (toggle_equipment i g).2 := by
          simp only [use_item, hk, dispatchUse, toggle_fst_kept i g e he]
        rw [hp]
        exact toggle_equipment_good i g hi ⟨hstore, hitems, hone⟩
    | Shield =>
      cases he : (g.inventory.getD i dObj).equipment with
      | none =>
        have ht : toggle_equipment i g = (UseResult.Cancelled, g) := by
          simp [toggle_equipment, he, -List.getD_eq_getElem?_getD]
        have hp : use_item i g =
            { g with log := addMsg g.log "Cancelled" Color.white } := by
          simp only [use_item, hk, dispatchUse, ht]
        rw [hp]
        exact ⟨hstore, hitems, hone⟩
      | some e =>
        have hp : use_item i g = (toggle_equipment i g).2 := by
          simp only [use_item, hk, dispatchUse, toggle_fst_kept i g e he]
        rw [hp]
        exact toggle_equipment_good i g hi ⟨hstore, hitems, hone⟩

/-- `drop_item` preserves the combined invariant. -/
theorem drop_item_good (i : Nat) (g : Game) (hi : i < g.inventory.length)
    (hg : GoodGame g) : GoodGame (drop_item i g) := by
  obtain ⟨hstore, hitems, hone⟩ := hg
  obtain ⟨he1, he2⟩ := eraseIdx_inventory_good g i ⟨hstore, hitems, hone⟩
  refine ⟨?_, he1, he2⟩
  intro o ho
  rcases List.mem_append.mp ho with hm | hm
  · exact hstore o hm
  · simp only [List.mem_singleton] at hm
    subst hm
    intro e2 he2'
    have hpos : ∀ (o2 : Object) (a b : Nat), (o2.set_pos a b).equipment = o2.equipment :=
      fun _ _ _ => rfl
    rw [hpos] at he2'
    rcases hioe : (g.inventory.getD i dObj).equipment with _ | e
    · have hil : (if (g.inventory.getD i dObj).equipment.isSome = true
          then (g.inventory.getD i dObj).unequip g.log
          else (g.inventory.getD i dObj, g.log)).1 = g.inventory.getD i dObj := by
        rw [hioe, if_neg (show ¬((none : Option Equipment).isSome = true) from by simp)]
      rw [hil, hioe] at he2'
      simp at he2'
    · have hiso : (g.inventory.getD i dObj).item.isSome :=
        hitems _ (getD_mem _ _ _ hi) (by rw [hioe]; rfl)
      have hres := unequip_result (g.inventory.getD i dObj) g.log e hiso hioe
      have hil : (if (g.inventory.getD i dObj).equipment.isSome = true
          then (g.inventory.getD i dObj).unequip g.log
          else (g.inventory.getD i dObj, g.log)).1
          = ((g.inventory.getD i dObj).unequip g.log).1 := by
        rw [hioe, if_pos (show (some e).isSome = true from rfl)]
      rw [hil, hres] at he2'
      have he3 : some { e with equipped := false } = some e2 := he2'
      injection he3 with h4
      rw [← h4]
  
/-- Every item-related player command preserves the combined invariant. -/
theorem run_op_good (g : Game) (op : ItemOp) (hg : GoodGame g) :
    GoodGame (run_op g op) := by
  cases op with
  | pickUp =>
    rw [run_op]
    cases hf : firstIdx (fun object =>
        decide (object.pos = (g.objects.headD dObj).pos) && object.item.isSome)
        g.objects with
    | none => exact hg
    | some item_id =>
      obtain ⟨hlen, hp⟩ := firstIdx_some_spec _ _ item_id dObj hf
      simp only [Bool.and_eq_true] at hp
      exact pick_item_up_good item_id g hlen hp.2 hg
  | useIt choice =>
    rw [run_op]
    split
    · exact use_item_good choice g (by assumption) hg
    · exact hg
  | dropIt choice =>
    rw [run_op]
    split
    · exact drop_item_good choice g (by assumption) hg
    · exact hg

theorem run_ops_good (ops : List ItemOp) (g : Game) (hg : GoodGame g) :
    GoodGame (run_ops g ops) := by
  rw [run_ops]
  induction ops generalizing g with
  | nil => exact hg
  | cons x xs ih => exact ih (run_op g x) (run_op_good g x hg)

/-- Claim C1: starting from a new game, after any sequence of pick-up,
drop and use-item commands, at most one inventory item is equipped in
each slot. -/
theorem C1_slot_exclusivity (seeds : Seeds) (ops : List ItemOp) (s : Slot) :
    (run_ops (new_game seeds) ops).inventory.countP (equippedInSlot s) ≤ 1 :=
  (run_ops_good ops (new_game seeds) (new_game_good seeds)).2.2 s

end Lardum
